import Mathlib

/-!
# Beach Problem Domain with resource abstraction: a shallow embedding of `main.cpp`

Modelling conventions.

* `std::vector<T>` is a `List T`; `push_back` appends at the end.
* C++ `int` is `Int` (the counts of this program stay far below `2^31`, so
  wrap-around is not modelled).
* C++ `double` is idealised as `ℝ` and `exp` as `Real.exp`; every definition
  that only handles integers stays computable.
* A call that can go wrong returns `Except Fault _`.  `vector::at` throws
  `std::out_of_range`; an unchecked read outside a vector (`operator[]`, or
  dereferencing the iterator `end()`), an integer division by zero and
  flowing off the end of a non-void function are undefined behaviour, and are
  recorded as faults of their own.
* `for (int i = 0; i < N; i++)` is a fold over `List.range N`.
-/

namespace BPD

/-! ## Constants (`#define`s of `main.cpp`) -/

def STEPS : Nat := 5
def NUM_AGENTS : Nat := 100
def LANES : Nat := 6
def CAPACITY : Nat := 6
def ACTIONS : Nat := 3
def NUM_SUPERLANES : Nat := 3

/-! ## Faults -/

/-- The ways a call of the program can go wrong. -/
inductive Fault where
  /-- The exception `std::out_of_range` thrown by `vector::at`. -/
  | out_of_range
  /-- Unchecked read outside a vector: undefined behaviour. -/
  | out_of_bounds
  /-- Integer division by zero: undefined behaviour. -/
  | division_by_zero
  /-- Control reaches the end of a non-void function: undefined behaviour. -/
  | missing_return
  deriving DecidableEq, Repr

/-- Whether the fault is an error the program signals (an exception), as
opposed to undefined behaviour. -/
def Fault.signalled : Fault → Bool
  | .out_of_range => true
  | .out_of_bounds => false
  | .division_by_zero => false
  | .missing_return => false

/-- Bounds-checked element access `v.at(i)`. -/
def vec_at {α : Type} (v : List α) (i : Int) : Except Fault α :=
  if 0 ≤ i then
    match v[i.toNat]? with
    | some x => .ok x
    | none => .error .out_of_range
  else .error .out_of_range

/-- Unchecked element access `v[i]`. -/
def vec_index {α : Type} (v : List α) (i : Int) : Except Fault α :=
  if 0 ≤ i then
    match v[i.toNat]? with
    | some x => .ok x
    | none => .error .out_of_bounds
  else .error .out_of_bounds

/-- Iterator returned by `std::find(v.begin(), v.end(), x)`, as an offset from
`begin()`: the first position holding `x`, or `v.size()` (that is `end()`)
when there is none. -/
def std_find (v : List Int) (x : Int) : Nat :=
  v.findIdx (fun y => y == x)

/-- Dereference `*p` of an iterator at offset `p` into `v`. -/
def deref (v : List Int) (p : Nat) : Except Fault Int :=
  match v[p]? with
  | some x => .ok x
  | none => .error .out_of_bounds

/-! ## Agents -/

/-- Modelled from the spec: the class `QLearner` of `qlearning.h`, which is not
part of the sources.  `main.cpp` reads and writes `id`, `state`,
`previousState` and `action`; the four reward slots are what `set_local`,
`set_global`, `set_difference` and `set_coordinated` record ("records the
reward values for the step"). -/
structure QLearner where
  id : Int
  state : Int
  previousState : Int
  action : Int
  r_local : ℝ
  r_global : ℝ
  r_difference : ℝ
  r_coordinated : ℝ

/-- Modelled from the spec: `QLearner::set_local`. -/
def QLearner.set_local (a : QLearner) (L : ℝ) : QLearner := { a with r_local := L }

/-- Modelled from the spec: `QLearner::set_global`. -/
def QLearner.set_global (a : QLearner) (G : ℝ) : QLearner := { a with r_global := G }

/-- Modelled from the spec: `QLearner::set_difference`. -/
def QLearner.set_difference (a : QLearner) (D : ℝ) : QLearner := { a with r_difference := D }

/-- Modelled from the spec: `QLearner::set_coordinated`. -/
def QLearner.set_coordinated (a : QLearner) (C : ℝ) : QLearner := { a with r_coordinated := C }

/-- The member functions of `QLearner` that `react` calls and whose bodies are
in `qlearning.h`; they are parameters of `react`. -/
structure Learning where
  learn_with_local : QLearner → QLearner
  learn_with_global : QLearner → QLearner
  learn_with_difference : QLearner → QLearner
  learn_with_coordinated : QLearner → QLearner
  Qupdate : QLearner → QLearner

/-- The global switches `command_global`, `command_difference`,
`command_local`, `command_coordinated`. -/
structure Commands where
  command_global : Bool
  command_difference : Bool
  command_local : Bool
  command_coordinated : Bool

/-- The switches as `main` sets them. -/
def mainCommands : Commands :=
  { command_global := false, command_difference := false,
    command_local := false, command_coordinated := true }

/-! ## Environment -/

/-- The class `highway`. -/
structure highway where
  highway_lookup : List ℝ
  attendance : List Int
  lane_local : List ℝ
  lane_difference : List ℝ
  global : ℝ

/-- One entry of the lookup table: `xx * exp(-xx / CAPACITY)` with `xx` the
`double` holding `x`. -/
noncomputable def payoff (x : Nat) : ℝ :=
  (x : ℝ) * Real.exp (-(x : ℝ) / (CAPACITY : ℝ))

/-- The member function `highway::make_lookup`. -/
noncomputable def highway.make_lookup (pE : highway) : highway :=
  { pE with
    highway_lookup :=
      (List.range (NUM_AGENTS + 1)).foldl (fun tbl x => tbl ++ [payoff x]) [] }

/-- The member function `highway::start`. -/
def highway.start (pE : highway) : highway :=
  { pE with lane_local := [], lane_difference := [], attendance := [], global := 0 }

/-- Body of the loop of `highway::get_attendance`:
`attendance.at(pA->at(i).state)++`. -/
def attend_step (pA : List QLearner) (att : List Int) (i : Nat) : Except Fault (List Int) := do
  let a ← vec_at pA i
  let n ← vec_at att a.state
  pure (att.set a.state.toNat (n + 1))

/-- The attendance vector computed by `highway::get_attendance`. -/
def count_attendance (pA : List QLearner) : Except Fault (List Int) :=
  (List.range NUM_AGENTS).foldlM (attend_step pA) (List.replicate LANES 0)

/-- The member function `highway::get_attendance`. -/
def highway.get_attendance (pE : highway) (pA : List QLearner) : Except Fault highway := do
  let att ← count_attendance pA
  pure { pE with attendance := att }

/-- Body of the loop of `highway::evaluate`. -/
def evaluate_step (pE : highway) (lane : Nat) : Except Fault highway := do
  let a ← vec_at pE.attendance lane
  let v ← vec_at pE.highway_lookup a
  let pE1 : highway := { pE with lane_local := pE.lane_local ++ [v] }
  let pE2 : highway := { pE1 with global := pE1.global + v }
  let a1 ← vec_at pE2.attendance lane
  if a1 = 0 then
    pure { pE2 with lane_difference := pE2.lane_difference ++ [0] }
  else do
    let a2 ← vec_at pE2.attendance lane
    let hi ← vec_at pE2.highway_lookup a2
    let a3 ← vec_at pE2.attendance lane
    let lo ← vec_at pE2.highway_lookup (a3 - 1)
    pure { pE2 with lane_difference := pE2.lane_difference ++ [hi - lo] }

/-- The member function `highway::evaluate`. -/
def highway.evaluate (pE : highway) : Except Fault highway :=
  (List.range pE.attendance.length).foldlM evaluate_step pE

/-! ## Resource abstraction -/

/-- The struct `superLane`. -/
structure superLane where
  id : Int
  capacity : Int
  attendance : Int
  membersID : List Int
  reward : ℝ

/-- The member function `superLane::reset`. -/
def superLane.reset (_s : superLane) : superLane :=
  { id := 0, capacity := 0, attendance := 0, membersID := [], reward := 0 }

/-- The `push_back` calls of `superLane::setMembers` that are compiled in (the
configuration 2+1+3). -/
def members_of (id : Int) : List Int :=
  if id = 0 then [0, 1]
  else if id = 1 then [2]
  else if id = 2 then [3, 4, 5]
  else []

/-- The member function `superLane::setMembers`. -/
def superLane.setMembers (s : superLane) : superLane :=
  let s1 : superLane := { s with capacity := 0, membersID := [] }
  let s2 : superLane := { s1 with membersID := s1.membersID ++ members_of s1.id }
  { s2 with capacity := (CAPACITY : Int) * (s2.membersID.length : Int) }

/-- The attendance loop of `superLane::calcAttendReward`:
`attendance += pE->attendance[*it]` over the members. -/
def group_attendance (att : List Int) (membersID : List Int) : Except Fault Int :=
  membersID.foldlM (fun acc m => do
    let v ← vec_index att m
    pure (acc + v)) 0

/-- The integer quotient `- attendance / capacity` of
`superLane::calcAttendReward`: unary minus first, then the division of two
`int`s, which truncates toward zero. -/
def reward_exponent (attendance capacity : Int) : Except Fault Int :=
  if capacity = 0 then .error .division_by_zero
  else .ok (Int.tdiv (-attendance) capacity)

/-- The member function `superLane::calcAttendReward`. -/
noncomputable def superLane.calcAttendReward (s : superLane) (pE : highway) :
    Except Fault superLane := do
  let A ← group_attendance pE.attendance s.membersID
  let q ← reward_exponent A s.capacity
  pure { s with attendance := A, reward := ((-A : Int) : ℝ) * Real.exp ((q : Int) : ℝ) }

/-- The function `findSuperLane`. -/
def findSuperLane : List superLane → Int → Except Fault Int
  | [], _ => .error .missing_return
  | it :: rest, lane => do
    let members := it.membersID
    let p := std_find members lane
    let v ← deref members p
    if v = lane then pure it.id else findSuperLane rest lane

/-- The superlane `S` that `main` builds in iteration `i` of its set-up loop:
`S.reset(); S.id = i; S.setMembers();`. -/
def main_superLane (i : Nat) : superLane :=
  let S : superLane := superLane.reset ⟨0, 0, 0, [], 0⟩
  let S : superLane := { S with id := (i : Int) }
  S.setMembers

/-- The superlane vector `main` builds: `superLanes.push_back(S)` for `i` in
`0 .. NUM_SUPERLANES - 1`. -/
def mainSuperLanes : List superLane :=
  (List.range NUM_SUPERLANES).foldl (fun v i => v ++ [main_superLane i]) []

/-! ## Interaction with the environment -/

/-- The function `sense`. -/
def sense (pA : List QLearner) : Except Fault (List QLearner) :=
  (List.range NUM_AGENTS).foldlM (fun pA (agent : Nat) => do
    let a ← vec_at pA agent
    pure (pA.set agent { a with previousState := a.state })) pA

/-- The transition of one agent in `act`. -/
def move (a : QLearner) : QLearner :=
  let a1 : QLearner := { a with state := a.state + (a.action - 1) }
  if a1.state < 0 then { a1 with state := 0 }
  else if a1.state ≥ (LANES : Int) then { a1 with state := (LANES : Int) - 1 }
  else a1

/-- The first loop of `act`. -/
def act_moves (pA : List QLearner) : Except Fault (List QLearner) :=
  (List.range NUM_AGENTS).foldlM (fun pA (agent : Nat) => do
    let a ← vec_at pA agent
    pure (pA.set agent (move a))) pA

/-- The function `act`. -/
def act (pA : List QLearner) (pE : highway) : Except Fault (List QLearner × highway) := do
  let pA1 ← act_moves pA
  let pE1 := pE.start
  let pE2 ← pE1.get_attendance pA1
  pure (pA1, pE2)

/-- The four rewards `L`, `G`, `D`, `C` that `react` computes for one agent. -/
structure Rewards where
  L : ℝ
  G : ℝ
  D : ℝ
  C : ℝ

/-- The reward computation of `react` for the agent `a`. -/
def react_rewards (a : QLearner) (pE : highway) (pS : List superLane) :
    Except Fault Rewards := do
  let L ← vec_at pE.lane_local a.state
  let G := pE.global
  let D ← vec_at pE.lane_difference a.state
  let agentLane := a.state
  let attLane ← vec_index pE.attendance agentLane
  let superLane ← findSuperLane pS agentLane
  let C ← if attLane > (CAPACITY : Int) then do
      let s ← vec_index pS superLane
      pure s.reward
    else pure L
  pure { L := L, G := G, D := D, C := C }

/-- The tail of the agent loop of `react`: the four setters, the
`learn_with_...` calls that the switches select, and `Qupdate`. -/
def react_learn (cmd : Commands) (ql : Learning) (a : QLearner) (r : Rewards) : QLearner :=
  let a := a.set_local r.L
  let a := a.set_global r.G
  let a := a.set_difference r.D
  let a := a.set_coordinated r.C
  let a := if cmd.command_local then ql.learn_with_local a else a
  let a := if cmd.command_global then ql.learn_with_global a else a
  let a := if cmd.command_difference then ql.learn_with_difference a else a
  let a := if cmd.command_coordinated then ql.learn_with_coordinated a else a
  ql.Qupdate a

/-- The body of the agent loop of `react`. -/
def react_agent (cmd : Commands) (ql : Learning) (pE : highway) (pS : List superLane)
    (pA : List QLearner) (agent : Nat) : Except Fault (List QLearner) := do
  let a ← vec_at pA agent
  let r ← react_rewards a pE pS
  pure (pA.set agent (react_learn cmd ql a r))

/-- The function `react`. -/
noncomputable def react (cmd : Commands) (ql : Learning) (pA : List QLearner) (pE : highway)
    (pS : List superLane) : Except Fault (List QLearner × highway × List superLane) := do
  let pE1 ← pE.evaluate
  let pS1 ← pS.mapM (fun s => s.calcAttendReward pE1)
  let pA1 ← (List.range NUM_AGENTS).foldlM (react_agent cmd ql pE1 pS1) pA
  pure (pA1, pE1, pS1)

/-! ## Vocabulary of the statements and concrete inputs -/

/-- Number of agents of the population whose state is lane `l`. -/
def lane_count (pA : List QLearner) (l : Nat) : Int :=
  ((pA.countP (fun a => decide (a.state = (l : Int))) : Nat) : Int)

/-- Every agent of the population is in a lane of `[0, LANES - 1]`. -/
def states_in_range (pA : List QLearner) : Prop :=
  ∀ a ∈ pA, 0 ≤ a.state ∧ a.state < (LANES : Int)

/-- Local reward of a lane with attendance `a`, read from the table `tbl`. -/
def local_of (tbl : List ℝ) (a : Int) : ℝ := tbl.getD a.toNat 0

/-- Difference reward of a lane with attendance `a`, read from the table `tbl`. -/
def difference_of (tbl : List ℝ) (a : Int) : ℝ :=
  if a = 0 then 0 else tbl.getD a.toNat 0 - tbl.getD (a - 1).toNat 0

/-- Every attendance is an index of the lookup table. -/
def attendance_in_table (pE : highway) : Prop :=
  ∀ a ∈ pE.attendance, 0 ≤ a ∧ a.toNat < pE.highway_lookup.length

/-- The environment `main` starts a run with: a fresh `highway` on which
`make_lookup` has been called. -/
noncomputable def main_highway : highway :=
  highway.make_lookup ⟨[], [], [], [], 0⟩

/-- An agent in lane `s` whose chosen action is 1 (stay). -/
def agent_at (s : Int) : QLearner :=
  { id := 0, state := s, previousState := s, action := 1,
    r_local := 0, r_global := 0, r_difference := 0, r_coordinated := 0 }

/-- A population of `NUM_AGENTS` agents: one in lane 0, the other 99 in lane 1. -/
def lonely_population : List QLearner :=
  agent_at 0 :: List.replicate 99 (agent_at 1)

/-- An environment whose attendance vector is the one of the end-to-end
scenario of the specification, `[10, 20, 30, 15, 15, 10]`. -/
def scenario_highway : highway :=
  { highway_lookup := [], attendance := [10, 20, 30, 15, 15, 10],
    lane_local := [], lane_difference := [], global := 0 }

/-- The environment after `act` on `lonely_population` from `main_highway`:
attendance `[1, 99, 0, 0, 0, 0]`. -/
noncomputable def lonely_highway : highway :=
  { main_highway.start with attendance := [1, 99, 0, 0, 0, 0] }

/-- The environment after `evaluate` on `lonely_highway`. -/
noncomputable def lonely_evaluated : highway :=
  { lonely_highway with
    lane_local := lonely_highway.lane_local ++
      lonely_highway.attendance.map (local_of lonely_highway.highway_lookup)
    lane_difference := lonely_highway.lane_difference ++
      lonely_highway.attendance.map (difference_of lonely_highway.highway_lookup)
    global := lonely_highway.global +
      (lonely_highway.attendance.map (local_of lonely_highway.highway_lookup)).sum }

/-- The superlane vector of `main` after `calcAttendReward` on
`lonely_evaluated`: aggregate attendances 100, 0, 0. -/
noncomputable def lonely_superLanes : List superLane :=
  [{ main_superLane 0 with
      attendance := 100
      reward := ((-100 : Int) : ℝ) * Real.exp ((Int.tdiv (-100) 12 : Int) : ℝ) },
   { main_superLane 1 with
      attendance := 0
      reward := ((-0 : Int) : ℝ) * Real.exp ((Int.tdiv (-0) 6 : Int) : ℝ) },
   { main_superLane 2 with
      attendance := 0
      reward := ((-0 : Int) : ℝ) * Real.exp ((Int.tdiv (-0) 18 : Int) : ℝ) }]

/-- An environment in which lane 0 is over capacity (7 agents) and lane 1
holds the other 93, with reward vectors already evaluated to simple values. -/
def crowded_highway : highway :=
  { highway_lookup := [], attendance := [7, 93, 0, 0, 0, 0],
    lane_local := [2, 0, 0, 0, 0, 0], lane_difference := [1, 0, 0, 0, 0, 0], global := 2 }

/-- Sum of the attendances of the lanes listed in `membersID`. -/
def member_sum (att : List Int) (membersID : List Int) : Int :=
  (membersID.map (fun m => att.getD m.toNat 0)).sum

/-- Every member of the list is an index of the attendance vector. -/
def members_in_bounds (att : List Int) (membersID : List Int) : Prop :=
  ∀ m ∈ membersID, 0 ≤ m ∧ m.toNat < att.length

/-- An environment that holds the attendance vector `att` and nothing else. -/
def highway_of_attendance (att : List Int) : highway :=
  { highway_lookup := [], attendance := att, lane_local := [], lane_difference := [],
    global := 0 }

/-- The superlane vector of `main` after `calcAttendReward` on the scenario
attendance `[10, 20, 30, 15, 15, 10]`. -/
noncomputable def scenario_superLanes : List superLane :=
  [{ main_superLane 0 with
      attendance := 30
      reward := ((-30 : Int) : ℝ) * Real.exp ((Int.tdiv (-30) 12 : Int) : ℝ) },
   { main_superLane 1 with
      attendance := 30
      reward := ((-30 : Int) : ℝ) * Real.exp ((Int.tdiv (-30) 6 : Int) : ℝ) },
   { main_superLane 2 with
      attendance := 40
      reward := ((-40 : Int) : ℝ) * Real.exp ((Int.tdiv (-40) 18 : Int) : ℝ) }]

/-- Modelled from the spec: the greedy value `max_a Q[s, a]` over the `ACTIONS`
actions `0 .. ACTIONS - 1` of the tabular Q-function of `QLearner`, which is
declared in `qlearning.h` and not part of the sources. -/
noncomputable def max_Q (Q : Int → Int → ℝ) (s : Int) : ℝ :=
  ((List.range ACTIONS).map (fun a => Q s (a : Int))).foldl max (Q s 0)

/-- Modelled from the spec: the member function `QLearner::Qupdate` of
`qlearning.h`, which is not part of the sources, as the specification words it:
`Q[previousState,action] += α · (reward + γ·max_a Q[newState,a] −
Q[previousState,action])`, every other entry of the table being left alone. -/
noncomputable def Qupdate (Q : Int → Int → ℝ) (alpha gamma reward : ℝ)
    (previousState action state : Int) : Int → Int → ℝ :=
  fun s a =>
    if s = previousState ∧ a = action then
      Q previousState action
        + alpha * (reward + gamma * max_Q Q state - Q previousState action)
    else Q s a

/-- The effect of `sense` on one agent: `previousState = state`. -/
def remember (a : QLearner) : QLearner :=
  { a with previousState := a.state }

/-- The value `x` clamped to the interval `[lo, hi]`. -/
def clamp (x lo hi : Int) : Int := max lo (min x hi)

/-- Number of agents of the population `pA`, taken before the transition,
whose clamped transition `clamp(state + (action - 1), 0, LANES - 1)` ends in
lane `l`. -/
def arrivals (pA : List QLearner) (l : Nat) : Int :=
  ((pA.countP (fun a =>
    decide (clamp (a.state + (a.action - 1)) 0 ((LANES : Int) - 1) = (l : Int))) : Nat) : Int)

/-- An agent in lane 0 that chooses action 2 (move to the next lane). -/
def mover : QLearner :=
  { id := 0, state := 0, previousState := 5, action := 2,
    r_local := 0, r_global := 0, r_difference := 0, r_coordinated := 0 }

/-- The superlane `s` as `calcAttendReward` leaves it on the environment `pE`
(when its member lanes are in bounds and its capacity is not zero). -/
noncomputable def rewarded (pE : highway) (s : superLane) : superLane :=
  { s with
    attendance := member_sum pE.attendance s.membersID
    reward := ((-(member_sum pE.attendance s.membersID) : Int) : ℝ)
      * Real.exp ((Int.tdiv (-(member_sum pE.attendance s.membersID)) s.capacity : Int) : ℝ) }

/-- The environment as `act` leaves it: vectors cleared by `start`, attendance
counted on the moved population. -/
def moved_highway (pA : List QLearner) (pE : highway) : highway :=
  { pE.start with attendance := (List.range LANES).map (lane_count (pA.map move)) }

/-- The environment as `evaluate` leaves it (when every attendance is an index
of the lookup table). -/
noncomputable def evaluated (pE : highway) : highway :=
  { pE with
    lane_local := pE.lane_local ++ pE.attendance.map (local_of pE.highway_lookup)
    lane_difference :=
      pE.lane_difference ++ pE.attendance.map (difference_of pE.highway_lookup)
    global := pE.global + (pE.attendance.map (local_of pE.highway_lookup)).sum }

/-- The rewards `react` computes for the agent `a`, or zeros when the
computation faults. -/
noncomputable def rewards_or_zero (pE : highway) (pS : List superLane) (a : QLearner) : Rewards :=
  match react_rewards a pE pS with
  | .ok r => r
  | .error _ => { L := 0, G := 0, D := 0, C := 0 }

/-- A population of `NUM_AGENTS` agents that all stay in lane 2. -/
def crowd_population : List QLearner :=
  List.replicate NUM_AGENTS (agent_at 2)

/-- A `Learning` record whose member functions leave the agent alone. -/
def idle_learning : Learning :=
  { learn_with_local := id, learn_with_global := id, learn_with_difference := id,
    learn_with_coordinated := id, Qupdate := id }

/-- The environment after `act` and `evaluate` on `crowd_population` from
`main_highway`. -/
noncomputable def crowd_evaluated : highway :=
  evaluated (moved_highway crowd_population main_highway)

/-- The superlane vector of `main` after `calcAttendReward` on
`crowd_evaluated`. -/
noncomputable def crowd_superLanes : List superLane :=
  mainSuperLanes.map (rewarded crowd_evaluated)

/-! ## Auxiliary lemmas: vectors and loops -/

theorem vec_at_nat {α : Type} (v : List α) (i : Nat) (x : α) (h : v[i]? = some x) :
    vec_at v (i : Int) = .ok x := by
  simp [vec_at, h]

theorem vec_at_int {α : Type} (v : List α) (i : Int) (x : α) (h0 : 0 ≤ i)
    (h : v[i.toNat]? = some x) : vec_at v i = .ok x := by
  simp [vec_at, h0, h]

theorem vec_index_int {α : Type} (v : List α) (i : Int) (x : α) (h0 : 0 ≤ i)
    (h : v[i.toNat]? = some x) : vec_index v i = .ok x := by
  simp [vec_index, h0, h]

/-- Invariant rule for a counted loop whose body cannot fail under the
invariant: the loop returns, and the invariant holds at the exit. -/
theorem range_loop_ok {σ : Type} (body : σ → Nat → Except Fault σ) (Inv : Nat → σ → Prop)
    (n : Nat) (s0 : σ) (h0 : Inv 0 s0)
    (hstep : ∀ i s, i < n → Inv i s → ∃ s1, body s i = .ok s1 ∧ Inv (i + 1) s1) :
    ∃ s, (List.range n).foldlM body s0 = .ok s ∧ Inv n s := by
  induction n with
  | zero => exact ⟨s0, rfl, h0⟩
  | succ k ih =>
    obtain ⟨s, hs, hinv⟩ := ih (fun i s hi h => hstep i s (Nat.lt_succ_of_lt hi) h)
    obtain ⟨s1, hb, hinv1⟩ := hstep k s (Nat.lt_succ_self k) hinv
    refine ⟨s1, ?_, hinv1⟩
    rw [List.range_succ, List.foldlM_append, hs]
    simp only [List.foldlM_cons, List.foldlM_nil]
    show (body s k >>= fun init => pure init) = Except.ok s1
    rw [hb]
    rfl

/-- A loop that appends one value per iteration builds the mapped list. -/
theorem foldl_push_eq_map {α β : Type} (f : α → β) (l : List α) (init : List β) :
    l.foldl (fun tbl x => tbl ++ [f x]) init = init ++ l.map f := by
  induction l generalizing init with
  | nil => simp
  | cons x xs ih => simp [ih]

/-- A loop that rewrites position `i` with `f` of the element there maps `f`
over the first `n` elements. -/
theorem range_loop_set {α : Type} (f : α → α) (v : List α) (n : Nat) (hn : n ≤ v.length) :
    (List.range n).foldlM (fun (w : List α) (i : Nat) => do
        let a ← vec_at w i
        pure (w.set i (f a))) v
      = .ok ((v.take n).map f ++ v.drop n) := by
  obtain ⟨s, hs, hinv⟩ := range_loop_ok
    (fun (w : List α) (i : Nat) => do
        let a ← vec_at w i
        pure (w.set i (f a)))
    (fun i w => w = (v.take i).map f ++ v.drop i) n v (by simp)
    (by
      intro i w hi hw
      have hlt : i < v.length := Nat.lt_of_lt_of_le hi hn
      have hget : w[i]? = some v[i] := by
        rw [hw, List.getElem?_append_right (by simp [Nat.min_eq_left (Nat.le_of_lt hlt)])]
        simp [Nat.min_eq_left (Nat.le_of_lt hlt), List.getElem?_eq_getElem hlt]
      refine ⟨w.set i (f v[i]), ?_, ?_⟩
      · show (vec_at w (i : Int) >>= fun a => pure (w.set i (f a))) = _
        rw [vec_at_nat w i v[i] hget]
        rfl
      · apply List.ext_getElem?
        intro j
        rw [List.getElem?_set, hw]
        have hwl : ((v.take i).map f ++ v.drop i).length = v.length := by
          simp [Nat.min_eq_left (Nat.le_of_lt hlt)]
          omega
        rw [hwl]
        by_cases hij : i = j
        · subst hij
          simp only [if_true, hlt]
          rw [List.getElem?_append_left (by simp [Nat.min_eq_left hlt]; )]
          simp [List.getElem?_take, List.getElem?_eq_getElem hlt]
        · simp only [hij, if_false]
          by_cases hji : j < i
          · rw [List.getElem?_append_left (by simp [Nat.min_eq_left (Nat.le_of_lt hlt)]; exact hji),
              List.getElem?_append_left (by simp [Nat.min_eq_left hlt]; omega)]
            simp [List.getElem?_take, hji, Nat.lt_succ_of_lt hji]
          · have hgt : i + 1 ≤ j := by omega
            rw [List.getElem?_append_right (by simp [Nat.min_eq_left (Nat.le_of_lt hlt)]; omega),
              List.getElem?_append_right (by simp [Nat.min_eq_left hlt]; omega)]
            simp [Nat.min_eq_left (Nat.le_of_lt hlt), Nat.min_eq_left hlt]
            congr 1
            omega)
  rw [hs, hinv]

/-! ## Auxiliary lemmas: `act` and `get_attendance` -/

theorem move_in_range (a : QLearner) : 0 ≤ (move a).state ∧ (move a).state < (LANES : Int) := by
  unfold move
  simp only [LANES]
  split_ifs with h1 h2
  · simp
  · simp
  · simp only at h1 h2 ⊢
    omega

theorem act_moves_ok (pA : List QLearner) (hlen : pA.length = NUM_AGENTS) :
    act_moves pA = .ok (pA.map move) := by
  have h := range_loop_set move pA NUM_AGENTS (Nat.le_of_eq hlen.symm)
  rw [← hlen] at h
  simp only [List.take_length, List.drop_length, List.append_nil] at h
  unfold act_moves
  rw [← hlen]
  exact h

theorem lane_count_snoc (pA : List QLearner) (a : QLearner) (l : Nat) :
    lane_count (pA ++ [a]) l = lane_count pA l + (if a.state = (l : Int) then 1 else 0) := by
  unfold lane_count
  rw [List.countP_append]
  by_cases h : a.state = (l : Int) <;> simp [List.countP_cons, h]

theorem count_attendance_ok (pA : List QLearner) (hlen : pA.length = NUM_AGENTS)
    (hr : states_in_range pA) :
    count_attendance pA = .ok ((List.range LANES).map (lane_count pA)) := by
  obtain ⟨att, hatt, hlen1, hinv⟩ := range_loop_ok (attend_step pA)
    (fun i att => att.length = LANES ∧
      ∀ l, l < LANES → att[l]? = some (lane_count (pA.take i) l))
    NUM_AGENTS (List.replicate LANES 0)
    (by
      refine ⟨by simp, ?_⟩
      intro l hl
      simp [List.getElem?_replicate, hl, lane_count])
    (by
      intro i att hi hatt
      obtain ⟨hl6, hcnt⟩ := hatt
      have hlt : i < pA.length := by omega
      obtain ⟨h0, h1⟩ := hr pA[i] (List.getElem_mem hlt)
      have hnat : pA[i].state.toNat < LANES := (Int.toNat_lt h0).2 h1
      have hcast : ((pA[i].state.toNat : Nat) : Int) = pA[i].state := Int.toNat_of_nonneg h0
      refine ⟨att.set pA[i].state.toNat (lane_count (pA.take i) pA[i].state.toNat + 1), ?_, ?_, ?_⟩
      · unfold attend_step
        show (vec_at pA (i : Int) >>= fun a =>
          vec_at att a.state >>= fun n => pure (att.set a.state.toNat (n + 1))) = _
        rw [vec_at_nat pA i pA[i] (List.getElem?_eq_getElem hlt)]
        show (vec_at att pA[i].state >>= fun n => pure (att.set pA[i].state.toNat (n + 1))) = _
        rw [vec_at_int att pA[i].state _ h0 (hcnt _ hnat)]
        rfl
      · simp [hl6]
      · intro l hl
        rw [List.take_succ, List.getElem?_eq_getElem hlt]
        simp only [Option.toList_some]
        rw [lane_count_snoc, List.getElem?_set, hl6]
        by_cases hsl : pA[i].state.toNat = l
        · subst hsl
          simp [hnat, hcast]
        · have hne : ¬ pA[i].state = (l : Int) := by
            intro hc
            apply hsl
            rw [hc]
            simp
          simp [hsl, hne, hcnt l hl])
  unfold count_attendance
  rw [hatt]
  congr 1
  apply List.ext_getElem?
  intro j
  by_cases hj : j < LANES
  · rw [hinv j hj, List.getElem?_map, List.getElem?_range hj, ← hlen, List.take_length]
    rfl
  · rw [List.getElem?_eq_none (by omega), List.getElem?_eq_none (by simp; omega)]

theorem lane_count_nonneg (pA : List QLearner) (l : Nat) : 0 ≤ lane_count pA l := by
  unfold lane_count
  exact Int.ofNat_nonneg _

theorem lane_count_le (pA : List QLearner) (l : Nat) : lane_count pA l ≤ (pA.length : Int) := by
  unfold lane_count
  exact Int.ofNat_le.2 (List.countP_le_length _)

theorem lane_count_cons (a : QLearner) (pA : List QLearner) (l : Nat) :
    lane_count (a :: pA) l = lane_count pA l + (if a.state = (l : Int) then 1 else 0) := by
  unfold lane_count
  by_cases h : a.state = (l : Int) <;> simp [List.countP_cons, h]

/-- With every agent in a lane of `[0, LANES - 1]`, the lane counts add up to
the size of the population. -/
theorem lane_count_sum (pA : List QLearner) (hr : states_in_range pA) :
    ((List.range LANES).map (lane_count pA)).sum = (pA.length : Int) := by
  induction pA with
  | nil => simp [lane_count, LANES, List.range_succ]
  | cons a t ih =>
    have ht : states_in_range t := fun b hb => hr b (List.mem_cons_of_mem a hb)
    have iht := ih ht
    obtain ⟨h0, h1⟩ := hr a (List.mem_cons_self a t)
    simp only [LANES, List.range_succ, List.range_zero, List.nil_append, List.map_append,
      List.map_cons, List.map_nil, List.sum_append, List.sum_cons, List.sum_nil,
      lane_count_cons, List.length_cons] at iht ⊢
    simp only [LANES] at h1
    have hcases : a.state = 0 ∨ a.state = 1 ∨ a.state = 2 ∨ a.state = 3 ∨ a.state = 4 ∨
        a.state = 5 := by omega
    rcases hcases with h | h | h | h | h | h <;> simp [h] <;> omega

/-! ## Auxiliary lemmas: `evaluate` and `make_lookup` -/

theorem ok_bind {α β : Type} (x : α) (f : α → Except Fault β) :
    (Except.ok x >>= f) = f x := rfl

theorem getElem?_getD (tbl : List ℝ) (n : Nat) (h : n < tbl.length) :
    tbl[n]? = some (tbl.getD n 0) := by
  simp [List.getD_eq_getElem?_getD, List.getElem?_eq_getElem h]

theorem evaluate_step_ok (e : highway) (i : Nat) (a : Int) (hi : e.attendance[i]? = some a)
    (h0 : 0 ≤ a) (hlt : a.toNat < e.highway_lookup.length) :
    evaluate_step e i = .ok
      { e with
        lane_local := e.lane_local ++ [local_of e.highway_lookup a]
        global := e.global + local_of e.highway_lookup a
        lane_difference := e.lane_difference ++ [difference_of e.highway_lookup a] } := by
  have hva : vec_at e.attendance (i : Int) = .ok a := vec_at_nat _ _ _ hi
  have hv : vec_at e.highway_lookup a = .ok (local_of e.highway_lookup a) :=
    vec_at_int _ _ _ h0 (getElem?_getD _ _ hlt)
  unfold evaluate_step
  simp only [bind, Except.bind, hva, hv]
  by_cases hz : a = 0
  · simp [hz, difference_of, pure, Except.pure]
  · have h1 : 0 ≤ a - 1 := by omega
    have hlt1 : (a - 1).toNat < e.highway_lookup.length := by omega
    have hv1 : vec_at e.highway_lookup (a - 1) = .ok (e.highway_lookup.getD (a - 1).toNat 0) :=
      vec_at_int _ _ _ h1 (getElem?_getD _ _ hlt1)
    simp [hz, hv1, difference_of, local_of, pure, Except.pure]

theorem evaluate_ok (pE : highway) (hatt : attendance_in_table pE) :
    pE.evaluate = .ok
      { pE with
        lane_local := pE.lane_local ++ pE.attendance.map (local_of pE.highway_lookup)
        lane_difference :=
          pE.lane_difference ++ pE.attendance.map (difference_of pE.highway_lookup)
        global := pE.global + (pE.attendance.map (local_of pE.highway_lookup)).sum } := by
  obtain ⟨e, he, hinv⟩ := range_loop_ok evaluate_step
    (fun i e => e =
      { pE with
        lane_local := pE.lane_local ++ (pE.attendance.take i).map (local_of pE.highway_lookup)
        lane_difference :=
          pE.lane_difference ++ (pE.attendance.take i).map (difference_of pE.highway_lookup)
        global := pE.global + ((pE.attendance.take i).map (local_of pE.highway_lookup)).sum })
    pE.attendance.length pE (by simp)
    (by
      intro i e hi hinv
      have hget : pE.attendance[i]? = some pE.attendance[i] := List.getElem?_eq_getElem hi
      obtain ⟨h0, hlt⟩ := hatt pE.attendance[i] (List.getElem_mem hi)
      refine ⟨_, evaluate_step_ok e i pE.attendance[i] (by rw [hinv]; exact hget) h0
        (by rw [hinv]; exact hlt), ?_⟩
      subst hinv
      simp only [List.take_succ, hget, Option.toList_some, List.map_append, List.map_cons,
        List.map_nil, List.sum_append, List.sum_cons, List.sum_nil, List.append_assoc,
        add_assoc, add_zero])
  unfold highway.evaluate
  rw [he, hinv]
  simp

theorem make_lookup_table (pE : highway) :
    pE.make_lookup.highway_lookup = (List.range (NUM_AGENTS + 1)).map payoff := by
  simp [highway.make_lookup, foldl_push_eq_map]

theorem make_lookup_length (pE : highway) :
    pE.make_lookup.highway_lookup.length = NUM_AGENTS + 1 := by
  simp [make_lookup_table]

theorem make_lookup_get (pE : highway) (x : Nat) (hx : x ≤ NUM_AGENTS) :
    pE.make_lookup.highway_lookup[x]? = some (payoff x) := by
  rw [make_lookup_table, List.getElem?_map, List.getElem?_range (Nat.lt_succ_of_le hx)]
  rfl

/-! ## Auxiliary lemmas: shape of the payoff curve -/

theorem payoff_lt_succ (x : Nat) (hx : x < CAPACITY) : payoff x < payoff (x + 1) := by
  have he : (1 : ℝ) - 1 / 6 < Real.exp (-(1 / 6)) := by
    have := Real.add_one_lt_exp (x := -(1 / 6 : ℝ)) (by norm_num)
    linarith
  have hsplit : Real.exp (-((x : ℝ) + 1) / 6) = Real.exp (-(x : ℝ) / 6) * Real.exp (-(1 / 6)) := by
    rw [← Real.exp_add]
    congr 1
    ring
  have hpos : 0 < Real.exp (-(x : ℝ) / 6) := Real.exp_pos _
  have hx6 : (x : ℝ) ≤ 5 := by
    have : x ≤ 5 := by simp only [CAPACITY] at hx; omega
    exact_mod_cast this
  have hx0 : (0 : ℝ) ≤ x := Nat.cast_nonneg x
  unfold payoff
  simp only [CAPACITY, Nat.cast_add, Nat.cast_one, Nat.cast_ofNat]
  rw [hsplit]
  have hkey : (x : ℝ) < ((x : ℝ) + 1) * Real.exp (-(1 / 6)) := by nlinarith
  nlinarith

theorem payoff_gt_succ (x : Nat) (hx : CAPACITY ≤ x) : payoff (x + 1) < payoff x := by
  have he : (1 : ℝ) + 1 / 6 < Real.exp (1 / 6) := by
    have := Real.add_one_lt_exp (x := (1 / 6 : ℝ)) (by norm_num)
    linarith
  have hsplit : Real.exp (-(x : ℝ) / 6) = Real.exp (-((x : ℝ) + 1) / 6) * Real.exp (1 / 6) := by
    rw [← Real.exp_add]
    congr 1
    ring
  have hpos : 0 < Real.exp (-((x : ℝ) + 1) / 6) := Real.exp_pos _
  have hx6 : (6 : ℝ) ≤ x := by
    have : 6 ≤ x := by simp only [CAPACITY] at hx; omega
    exact_mod_cast this
  unfold payoff
  simp only [CAPACITY, Nat.cast_add, Nat.cast_one, Nat.cast_ofNat]
  rw [hsplit]
  have hkey : (x : ℝ) + 1 < (x : ℝ) * Real.exp (1 / 6) := by nlinarith
  nlinarith

theorem payoff_lt_peak (x : Nat) (hx : x ≠ CAPACITY) : payoff x < payoff CAPACITY := by
  have hne : (x : ℝ) / 6 - 1 ≠ 0 := by
    intro h
    apply hx
    have h6 : (x : ℝ) = 6 := by linarith
    simp only [CAPACITY]
    exact_mod_cast h6
  have he := Real.add_one_lt_exp hne
  have hsplit : Real.exp (-(6 : ℝ) / 6) = Real.exp (-(x : ℝ) / 6) * Real.exp ((x : ℝ) / 6 - 1) := by
    rw [← Real.exp_add]
    congr 1
    ring
  have hpos : 0 < Real.exp (-(x : ℝ) / 6) := Real.exp_pos _
  unfold payoff
  simp only [CAPACITY, Nat.cast_ofNat]
  rw [hsplit]
  nlinarith

/-! ## Auxiliary lemmas: superlanes -/

theorem mainSuperLanes_eq :
    mainSuperLanes = [main_superLane 0, main_superLane 1, main_superLane 2] := rfl

theorem calcAttendReward_ok (s : superLane) (pE : highway) (A : Int)
    (hA : group_attendance pE.attendance s.membersID = .ok A) (hc : s.capacity ≠ 0) :
    s.calcAttendReward pE = .ok
      { s with
        attendance := A
        reward := ((-A : Int) : ℝ) * Real.exp ((Int.tdiv (-A) s.capacity : Int) : ℝ) } := by
  unfold superLane.calcAttendReward reward_exponent
  rw [hA]
  simp only [hc, if_false]
  rfl

theorem deref_absent (v : List Int) (lane : Int) (h : lane ∉ v) :
    deref v (std_find v lane) = .error .out_of_bounds := by
  have hidx : std_find v lane = v.length := by
    unfold std_find
    rw [List.findIdx_eq_length]
    intro x hx
    simp only [beq_eq_false_iff_ne, ne_eq]
    intro hxl
    exact h (hxl ▸ hx)
  unfold deref
  rw [hidx, List.getElem?_eq_none (Nat.le_refl _)]

theorem deref_present (v : List Int) (lane : Int) (h : lane ∈ v) :
    deref v (std_find v lane) = .ok lane := by
  induction v with
  | nil => cases h
  | cons x xs ih =>
    unfold std_find
    rw [List.findIdx_cons]
    by_cases hx : x = lane
    · subst hx
      simp [deref]
    · have hmem : lane ∈ xs := by
        rcases List.mem_cons.1 h with h1 | h1
        · exact absurd h1.symm hx
        · exact h1
      have hb : (x == lane) = false := by simp [hx]
      have := ih hmem
      unfold std_find deref at this
      unfold deref
      simp only [hb, cond_false, List.getElem?_cons_succ]
      exact this

/-- When `findSuperLane` returns, it returns the id of a superlane of the
vector whose `membersID` holds the lane. -/
theorem findSuperLane_sound (pS : List superLane) (lane g : Int)
    (h : findSuperLane pS lane = .ok g) : ∃ o ∈ pS, o.id = g ∧ lane ∈ o.membersID := by
  induction pS with
  | nil => simp [findSuperLane] at h
  | cons it rest ih =>
    by_cases hm : lane ∈ it.membersID
    · refine ⟨it, List.mem_cons_self _ _, ?_, hm⟩
      unfold findSuperLane at h
      simp only [deref_present _ _ hm, bind, Except.bind, if_true] at h
      cases h
      rfl
    · unfold findSuperLane at h
      simp only [deref_absent _ _ hm, bind, Except.bind] at h
      cases h

/-! ## Auxiliary lemmas: one step -/

theorem states_in_range_map_move (pA : List QLearner) : states_in_range (pA.map move) := by
  intro a ha
  obtain ⟨b, _, hb⟩ := List.mem_map.1 ha
  rw [← hb]
  exact move_in_range b

theorem get_attendance_ok (pE : highway) (pA : List QLearner) (hlen : pA.length = NUM_AGENTS)
    (hr : states_in_range pA) :
    pE.get_attendance pA = .ok { pE with attendance := (List.range LANES).map (lane_count pA) } := by
  unfold highway.get_attendance
  rw [count_attendance_ok pA hlen hr]
  rfl

theorem act_ok (pA : List QLearner) (pE : highway) (hlen : pA.length = NUM_AGENTS) :
    act pA pE = .ok (pA.map move,
      { pE.start with attendance := (List.range LANES).map (lane_count (pA.map move)) }) := by
  unfold act
  rw [act_moves_ok pA hlen]
  simp only [ok_bind]
  rw [get_attendance_ok pE.start (pA.map move) (by simpa using hlen)
    (states_in_range_map_move pA)]
  rfl

theorem lane_counts_get (pA : List QLearner) (l : Nat) (hl : l < LANES) :
    ((List.range LANES).map (lane_count pA))[l]? = some (lane_count pA l) := by
  rw [List.getElem?_map, List.getElem?_range hl]
  rfl

theorem lane_counts_mem (pA : List QLearner) (x : Int)
    (hx : x ∈ (List.range LANES).map (lane_count pA)) : 0 ≤ x ∧ x ≤ (pA.length : Int) := by
  obtain ⟨l, _, hl⟩ := List.mem_map.1 hx
  rw [← hl]
  exact ⟨lane_count_nonneg pA l, lane_count_le pA l⟩

/-! ## Auxiliary lemmas: rewards of one agent -/

theorem react_rewards_low (a : QLearner) (pE : highway) (pS : List superLane) (L D : ℝ)
    (att g : Int) (hL : vec_at pE.lane_local a.state = .ok L)
    (hD : vec_at pE.lane_difference a.state = .ok D)
    (hatt : vec_index pE.attendance a.state = .ok att)
    (hg : findSuperLane pS a.state = .ok g) (hle : ¬ att > (CAPACITY : Int)) :
    react_rewards a pE pS = .ok { L := L, G := pE.global, D := D, C := L } := by
  unfold react_rewards
  simp only [hL, hD, hatt, hg, ok_bind, hle, if_false]
  rfl

theorem react_rewards_high (a : QLearner) (pE : highway) (pS : List superLane) (L D : ℝ)
    (att g : Int) (s : superLane) (hL : vec_at pE.lane_local a.state = .ok L)
    (hD : vec_at pE.lane_difference a.state = .ok D)
    (hatt : vec_index pE.attendance a.state = .ok att)
    (hg : findSuperLane pS a.state = .ok g) (hs : vec_index pS g = .ok s)
    (hgt : att > (CAPACITY : Int)) :
    react_rewards a pE pS = .ok { L := L, G := pE.global, D := D, C := s.reward } := by
  unfold react_rewards
  simp only [hL, hD, hatt, hg, ok_bind, hgt, if_true, hs]
  rfl

theorem lonely_population_counts :
    (List.range LANES).map (lane_count (lonely_population.map move)) = [1, 99, 0, 0, 0, 0] := by
  rfl

/-! ## Claims -/

/-- C1 (defect in the code). At the superlane 0 of `main` (members 0 and 1,
capacity 12) and the scenario attendance `[10, 20, 30, 15, 15, 10]`,
`calcAttendReward` finds the aggregate attendance 30 and sets the reward to
`-30 * exp(-2)`: the exponent is the truncated integer quotient `-30 / 12`, so
the reward is not `-30 * exp(-30 / 12)` with the real-valued quotient. -/
theorem C1_calcAttendReward_integer_quotient :
    ∃ s, (main_superLane 0).calcAttendReward scenario_highway = .ok s ∧
      s.attendance = 30 ∧ s.capacity = 12 ∧
      s.reward = -30 * Real.exp (-2) ∧
      s.reward ≠ -30 * Real.exp (-(30 : ℝ) / 12) := by
  refine ⟨_, calcAttendReward_ok (main_superLane 0) scenario_highway 30 rfl (by decide),
    rfl, rfl, ?_, ?_⟩
  · show ((-30 : Int) : ℝ) * Real.exp ((Int.tdiv (-30) 12 : Int) : ℝ) = -30 * Real.exp (-2)
    have h : Int.tdiv (-30) 12 = -2 := by decide
    rw [h]
    norm_num
  · show ((-30 : Int) : ℝ) * Real.exp ((Int.tdiv (-30) 12 : Int) : ℝ) ≠ _
    have h : Int.tdiv (-30) 12 = -2 := by decide
    rw [h]
    intro hc
    have h1 : Real.exp (((-2 : Int) : ℝ)) = Real.exp (-(30 : ℝ) / 12) := by
      have h30 : ((-30 : Int) : ℝ) = -30 := by norm_num
      rw [h30] at hc
      linarith
    have h2 := Real.exp_injective h1
    norm_num at h2

/-- C2 (counterexample). Set-up of `main`, one agent in lane 0 and 99 in lane
1, every agent staying. After `act`, `evaluate` and `calcAttendReward`, the
agent in lane 0 gets `C = highway_lookup[1] = payoff 1` (its lane is not over
capacity, so `C = L`), while superlane 0, which `findSuperLane` returns for
lane 0 and which holds lane 0, has the reward `-100 * exp(-8)`. -/
theorem C2_coordinated_is_not_always_group_reward :
    act lonely_population main_highway = .ok (lonely_population, lonely_highway) ∧
    lonely_highway.evaluate = .ok lonely_evaluated ∧
    mainSuperLanes.mapM (fun s => s.calcAttendReward lonely_evaluated) = .ok lonely_superLanes ∧
    findSuperLane lonely_superLanes (agent_at 0).state = .ok 0 ∧
    (vec_index lonely_superLanes 0).map (fun s => s.membersID) = .ok [0, 1] ∧
    (vec_index lonely_superLanes 0).map (fun s => s.reward) = .ok (-100 * Real.exp (-8)) ∧
    (react_rewards (agent_at 0) lonely_evaluated lonely_superLanes).map (fun r => r.C)
      = .ok (payoff 1) ∧
    payoff 1 ≠ -100 * Real.exp (-8) := by
  have hact : act lonely_population main_highway = .ok (lonely_population, lonely_highway) := by
    rw [act_ok lonely_population main_highway rfl, lonely_population_counts]
    rfl
  have hlen : main_highway.highway_lookup.length = 101 := make_lookup_length _
  have hin : attendance_in_table lonely_highway := by
    intro a ha
    have hl : lonely_highway.highway_lookup.length = 101 := hlen
    rw [hl]
    have ha1 : a ∈ ([1, 99, 0, 0, 0, 0] : List Int) := ha
    simp only [List.mem_cons, List.mem_singleton, List.not_mem_nil, or_false] at ha1
    omega
  have hev : lonely_highway.evaluate = .ok lonely_evaluated := evaluate_ok lonely_highway hin
  have h0 := calcAttendReward_ok (main_superLane 0) lonely_evaluated 100 rfl (by decide)
  have h1 := calcAttendReward_ok (main_superLane 1) lonely_evaluated 0 rfl (by decide)
  have h2 := calcAttendReward_ok (main_superLane 2) lonely_evaluated 0 rfl (by decide)
  have hL : local_of main_highway.highway_lookup 1 = payoff 1 := by
    have h1 : (1 : Int).toNat = 1 := rfl
    unfold local_of
    rw [h1, List.getD_eq_getElem?_getD, main_highway, make_lookup_get _ 1 (by decide)]
    rfl
  have h8 : ((-100 : Int) : ℝ) * Real.exp ((Int.tdiv (-100) 12 : Int) : ℝ)
      = -100 * Real.exp (-8) := by
    have h : Int.tdiv (-100) 12 = -8 := by decide
    rw [h]
    norm_num
  refine ⟨hact, hev, ?_, rfl, rfl, ?_, ?_, ?_⟩
  · rw [mainSuperLanes_eq]
    simp only [List.mapM_cons, List.mapM_nil]
    rw [h0, h1, h2]
    rfl
  · show Except.ok (((-100 : Int) : ℝ) * Real.exp ((Int.tdiv (-100) 12 : Int) : ℝ)) = _
    rw [h8]
  · have hLL : vec_at lonely_evaluated.lane_local (agent_at 0).state
        = .ok (local_of main_highway.highway_lookup 1) := by
      simp [vec_at, lonely_evaluated, lonely_highway, highway.start, agent_at]
    have hDD : vec_at lonely_evaluated.lane_difference (agent_at 0).state
        = .ok (difference_of main_highway.highway_lookup 1) := by
      simp [vec_at, lonely_evaluated, lonely_highway, highway.start, agent_at]
    have hAA : vec_index lonely_evaluated.attendance (agent_at 0).state = .ok 1 := by
      simp [vec_index, lonely_evaluated, lonely_highway, highway.start, agent_at]
    have hGG : findSuperLane lonely_superLanes (agent_at 0).state = .ok 0 := rfl
    rw [react_rewards_low (agent_at 0) lonely_evaluated lonely_superLanes
      (local_of main_highway.highway_lookup 1) (difference_of main_highway.highway_lookup 1)
      1 0 hLL hDD hAA hGG (by decide)]
    simp only [Except.map]
    rw [hL]
  · have hp : 0 < payoff 1 := by
      unfold payoff
      have := Real.exp_pos (-((1 : Nat) : ℝ) / ((CAPACITY : Nat) : ℝ))
      simpa using this
    have hn := Real.exp_pos (-8)
    linarith

/-- C2 (amended). For an agent whose lane has the rewards `L`, `D` and the
attendance `att`, and for which `findSuperLane` returns an id `g` (without
reading out of bounds): `react` hands to `set_coordinated` the value `C` with
`C = ` the reward of the superlane indexed by `g` when `att > CAPACITY`, and
`C = L` otherwise; and `g` is the id of a superlane holding the agent's lane. -/
theorem C2_coordinated_reward (cmd : Commands) (ql : Learning) (pA : List QLearner)
    (agent : Nat) (a : QLearner) (pE : highway) (pS : List superLane) (L D : ℝ)
    (att g : Int) (s : superLane)
    (ha : vec_at pA (agent : Int) = .ok a)
    (hL : vec_at pE.lane_local a.state = .ok L)
    (hD : vec_at pE.lane_difference a.state = .ok D)
    (hatt : vec_index pE.attendance a.state = .ok att)
    (hg : findSuperLane pS a.state = .ok g)
    (hs : att > (CAPACITY : Int) → vec_index pS g = .ok s) :
    ∃ r, react_rewards a pE pS = .ok r ∧
      react_agent cmd ql pE pS pA agent = .ok (pA.set agent (react_learn cmd ql a r)) ∧
      (react_learn cmd ql a r) = ql.Qupdate
        ((if cmd.command_coordinated then ql.learn_with_coordinated else id)
          ((if cmd.command_difference then ql.learn_with_difference else id)
            ((if cmd.command_global then ql.learn_with_global else id)
              ((if cmd.command_local then ql.learn_with_local else id)
                ((((a.set_local r.L).set_global r.G).set_difference r.D).set_coordinated
                  r.C))))) ∧
      r.L = L ∧
      r.C = (if att > (CAPACITY : Int) then s.reward else L) ∧
      ∃ o ∈ pS, o.id = g ∧ a.state ∈ o.membersID := by
  have hlearn : ∀ r, (react_learn cmd ql a r) = ql.Qupdate
        ((if cmd.command_coordinated then ql.learn_with_coordinated else id)
          ((if cmd.command_difference then ql.learn_with_difference else id)
            ((if cmd.command_global then ql.learn_with_global else id)
              ((if cmd.command_local then ql.learn_with_local else id)
                ((((a.set_local r.L).set_global r.G).set_difference r.D).set_coordinated
                  r.C))))) := by
    intro r
    unfold react_learn
    cases cmd.command_coordinated <;> cases cmd.command_difference <;>
      cases cmd.command_global <;> cases cmd.command_local <;> rfl
  by_cases hgt : att > (CAPACITY : Int)
  · have hr := react_rewards_high a pE pS L D att g s hL hD hatt hg (hs hgt) hgt
    refine ⟨_, hr, ?_, hlearn _, rfl, ?_, findSuperLane_sound pS a.state g hg⟩
    · unfold react_agent
      rw [ha, ok_bind, hr, ok_bind]
      rfl
    · simp [hgt]
  · have hr := react_rewards_low a pE pS L D att g hL hD hatt hg hgt
    refine ⟨_, hr, ?_, hlearn _, rfl, ?_, findSuperLane_sound pS a.state g hg⟩
    · unfold react_agent
      rw [ha, ok_bind, hr, ok_bind]
      rfl
    · simp [hgt]

/-- Witness of C2 (amended): an agent in lane 0, which holds 7 agents, with the
superlane vector of `main`; `C` is the reward of superlane 0. -/
theorem C2_coordinated_reward_witness :
    vec_at (agent_at 0 :: List.replicate 99 (agent_at 1)) ((0 : Nat) : Int) = .ok (agent_at 0) ∧
    vec_at crowded_highway.lane_local (agent_at 0).state = .ok 2 ∧
    vec_at crowded_highway.lane_difference (agent_at 0).state = .ok 1 ∧
    vec_index crowded_highway.attendance (agent_at 0).state = .ok 7 ∧
    findSuperLane mainSuperLanes (agent_at 0).state = .ok 0 ∧
    ((7 : Int) > (CAPACITY : Int) → vec_index mainSuperLanes 0 = .ok (main_superLane 0)) ∧
    ∃ r, react_rewards (agent_at 0) crowded_highway mainSuperLanes = .ok r ∧
      r.C = (main_superLane 0).reward :=
  have h := C2_coordinated_reward mainCommands ⟨id, id, id, id, id⟩
    (agent_at 0 :: List.replicate 99 (agent_at 1)) 0 (agent_at 0) crowded_highway
    mainSuperLanes 2 1 7 0 (main_superLane 0) rfl rfl rfl rfl rfl (fun _ => rfl)
  ⟨rfl, rfl, rfl, rfl, rfl, fun _ => rfl,
    h.choose, h.choose_spec.1, by
      have hc := h.choose_spec.2.2.2.2.1
      rw [hc]
      simp [CAPACITY]⟩

/-- C3 (defect in the code). On the superlane vector of `main`, `findSuperLane`
returns 0 for the lanes 0 and 1, but for each of the lanes 2, 3, 4, 5 it
dereferences the `end()` iterator of the membership vector of superlane 0
(`find` returns offset 2 in a vector of 2 entries): a read outside the vector. -/
theorem C3_findSuperLane_reads_past_end :
    findSuperLane mainSuperLanes 0 = .ok 0 ∧
    findSuperLane mainSuperLanes 1 = .ok 0 ∧
    (main_superLane 0).membersID.length = 2 ∧
    std_find (main_superLane 0).membersID 2 = 2 ∧
    deref (main_superLane 0).membersID (std_find (main_superLane 0).membersID 2)
      = .error .out_of_bounds ∧
    findSuperLane mainSuperLanes 2 = .error .out_of_bounds ∧
    findSuperLane mainSuperLanes 3 = .error .out_of_bounds ∧
    findSuperLane mainSuperLanes 4 = .error .out_of_bounds ∧
    findSuperLane mainSuperLanes 5 = .error .out_of_bounds :=
  ⟨rfl, rfl, rfl, rfl, rfl, rfl, rfl, rfl, rfl⟩

/-- C4 (defect in the code). For every superlane vector and every lane that is
in no `membersID`, `findSuperLane` does not signal an error: it runs into
undefined behaviour, either the dereference of `end()` of the first membership
vector or, on an empty vector, the missing `return`. -/
theorem C4_findSuperLane_absent_lane_undefined (pS : List superLane) (lane : Int)
    (habs : ∀ s ∈ pS, lane ∉ s.membersID) :
    ∃ f, findSuperLane pS lane = .error f ∧ f.signalled = false ∧
      (pS = [] → f = .missing_return) ∧ (pS ≠ [] → f = .out_of_bounds) := by
  cases pS with
  | nil =>
    refine ⟨.missing_return, rfl, rfl, ?_, ?_⟩
    · intro _
      rfl
    · intro h
      exact absurd rfl h
  | cons it rest =>
    refine ⟨.out_of_bounds, ?_, rfl, ?_, ?_⟩
    · unfold findSuperLane
      simp only [deref_absent _ _ (habs it (List.mem_cons_self _ _)), bind, Except.bind]
    · intro h
      exact absurd h (List.cons_ne_nil it rest)
    · intro _
      rfl

/-- Witness of C4: lane 6 on the superlane vector of `main`. -/
theorem C4_findSuperLane_absent_lane_undefined_witness :
    (∀ s ∈ mainSuperLanes, (6 : Int) ∉ s.membersID) ∧
    ∃ f, findSuperLane mainSuperLanes 6 = .error f ∧ f.signalled = false ∧
      (mainSuperLanes = [] → f = .missing_return) ∧
      (mainSuperLanes ≠ [] → f = .out_of_bounds) :=
  ⟨by simp [mainSuperLanes_eq, main_superLane, superLane.setMembers, superLane.reset, members_of],
    C4_findSuperLane_absent_lane_undefined mainSuperLanes 6
      (by simp [mainSuperLanes_eq, main_superLane, superLane.setMembers, superLane.reset,
        members_of])⟩

/-- C5. The superlanes built by `main` have ids 0, 1, 2 and memberships
`[0, 1]`, `[2]`, `[3, 4, 5]`; every lane of `[0, LANES - 1]` is in the
`membersID` of exactly one superlane and occurs exactly once there; and every
member is a lane of `[0, LANES - 1]`. -/
theorem C5_main_superlanes_partition :
    mainSuperLanes.map (fun s => s.id) = [0, 1, 2] ∧
    mainSuperLanes.map (fun s => s.membersID) = [[0, 1], [2], [3, 4, 5]] ∧
    (∀ l : Nat, l < LANES →
      mainSuperLanes.countP (fun s => decide ((l : Int) ∈ s.membersID)) = 1 ∧
      ∀ s ∈ mainSuperLanes, (l : Int) ∈ s.membersID → s.membersID.count (l : Int) = 1) ∧
    (∀ s ∈ mainSuperLanes, ∀ m ∈ s.membersID, 0 ≤ m ∧ m < (LANES : Int)) := by
  refine ⟨rfl, rfl, ?_, ?_⟩
  · intro l hl
    simp only [LANES] at hl
    simp only [mainSuperLanes_eq, main_superLane, superLane.setMembers, superLane.reset,
      members_of]
    interval_cases l <;> simp
  · simp [mainSuperLanes_eq, main_superLane, superLane.setMembers, superLane.reset,
      members_of, LANES]

/-- The transition of `act` on one agent: the state becomes
`clamp(state + (action - 1), 0, LANES - 1)` and nothing else changes. -/
theorem move_effect (a : QLearner) :
    (move a).state = clamp (a.state + (a.action - 1)) 0 ((LANES : Int) - 1) ∧
    (move a).action = a.action ∧ (move a).previousState = a.previousState ∧
    (move a).id = a.id := by
  unfold move clamp
  simp only [LANES]
  split_ifs with h1 h2
  · simp only at h1 ⊢
    exact ⟨by omega, trivial, trivial, trivial⟩
  · simp only at h1 h2 ⊢
    exact ⟨by omega, trivial, trivial, trivial⟩
  · simp only at h1 h2 ⊢
    exact ⟨by omega, trivial, trivial, trivial⟩

theorem lane_count_moved (pA : List QLearner) (l : Nat) :
    lane_count (pA.map move) l = arrivals pA l := by
  unfold lane_count arrivals
  rw [List.countP_map]
  congr 2
  funext a
  simp only [Function.comp, (move_effect a).1]

/-- C6. On a population of `NUM_AGENTS` agents, whatever their states and
actions, `act` returns; every agent that had state `s` and action `a` now has
the state `clamp(s + (a - 1), 0, LANES - 1)` (its other fields are unchanged);
the attendance vector has exactly `LANES` entries, and its entry `l` is the
number of agents whose clamped transition ends in lane `l`, which is the number
of agents of the returned, fully updated population whose state is `l`. -/
theorem C6_act_attendance_of_updated_population (pA : List QLearner) (pE : highway)
    (hlen : pA.length = NUM_AGENTS) :
    ∃ pA1 pE1, act pA pE = .ok (pA1, pE1) ∧ pA1 = pA.map move ∧
      pA1.length = NUM_AGENTS ∧
      (∀ i, i < NUM_AGENTS → ∃ a b, pA[i]? = some a ∧ pA1[i]? = some b ∧
        b.state = clamp (a.state + (a.action - 1)) 0 ((LANES : Int) - 1) ∧
        b.action = a.action ∧ b.previousState = a.previousState ∧ b.id = a.id) ∧
      pE1.attendance.length = LANES ∧
      ∀ l, l < LANES →
        pE1.attendance[l]? = some (arrivals pA l) ∧
        pE1.attendance[l]? = some (lane_count pA1 l) := by
  refine ⟨_, _, act_ok pA pE hlen, rfl, by simpa using hlen, ?_, by simp, ?_⟩
  · intro i hi
    have hlt : i < pA.length := by omega
    refine ⟨pA[i], move pA[i], List.getElem?_eq_getElem hlt, ?_, move_effect pA[i]⟩
    simp [List.getElem?_eq_getElem hlt]
  · intro l hl
    refine ⟨?_, lane_counts_get (pA.map move) l hl⟩
    rw [← lane_count_moved pA l]
    exact lane_counts_get (pA.map move) l hl

/-- Witness of C6: `NUM_AGENTS` agents in lane 0 that all choose action 2; all
of them arrive in lane 1 and none stays in lane 0. -/
theorem C6_act_attendance_of_updated_population_witness :
    (List.replicate NUM_AGENTS mover).length = NUM_AGENTS ∧
    arrivals (List.replicate NUM_AGENTS mover) 0 = 0 ∧
    arrivals (List.replicate NUM_AGENTS mover) 1 = 100 ∧
    ∃ pA1 pE1, act (List.replicate NUM_AGENTS mover) main_highway = .ok (pA1, pE1) ∧
      pA1 = (List.replicate NUM_AGENTS mover).map move ∧
      pA1.length = NUM_AGENTS ∧
      (∀ i, i < NUM_AGENTS → ∃ a b, (List.replicate NUM_AGENTS mover)[i]? = some a ∧
        pA1[i]? = some b ∧
        b.state = clamp (a.state + (a.action - 1)) 0 ((LANES : Int) - 1) ∧
        b.action = a.action ∧ b.previousState = a.previousState ∧ b.id = a.id) ∧
      pE1.attendance.length = LANES ∧
      ∀ l, l < LANES →
        pE1.attendance[l]? = some (arrivals (List.replicate NUM_AGENTS mover) l) ∧
        pE1.attendance[l]? = some (lane_count pA1 l) :=
  ⟨List.length_replicate _ _, rfl, rfl,
    C6_act_attendance_of_updated_population (List.replicate NUM_AGENTS mover) main_highway
      (List.length_replicate _ _)⟩

/-- C7. For a population of `NUM_AGENTS` agents whose states all lie in
`[0, LANES - 1]`, `get_attendance` returns, the entries of the attendance
vector add up to `NUM_AGENTS`, and every entry is between 0 and `NUM_AGENTS`. -/
theorem C7_get_attendance_sum (pA : List QLearner) (pE : highway)
    (hlen : pA.length = NUM_AGENTS) (hr : states_in_range pA) :
    ∃ pE1, pE.get_attendance pA = .ok pE1 ∧
      pE1.attendance.sum = (NUM_AGENTS : Int) ∧
      ∀ x ∈ pE1.attendance, 0 ≤ x ∧ x ≤ (NUM_AGENTS : Int) := by
  refine ⟨_, get_attendance_ok pE pA hlen hr, ?_, ?_⟩
  · show ((List.range LANES).map (lane_count pA)).sum = (NUM_AGENTS : Int)
    rw [lane_count_sum pA hr, hlen]
  · intro x hx
    have h := lane_counts_mem pA x hx
    rw [hlen] at h
    exact h

/-- Witness of C7: the population with one agent in lane 0 and 99 in lane 1. -/
theorem C7_get_attendance_sum_witness :
    lonely_population.length = NUM_AGENTS ∧ states_in_range lonely_population ∧
    ∃ pE1, main_highway.get_attendance lonely_population = .ok pE1 ∧
      pE1.attendance.sum = (NUM_AGENTS : Int) ∧
      ∀ x ∈ pE1.attendance, 0 ≤ x ∧ x ≤ (NUM_AGENTS : Int) :=
  have hr : states_in_range lonely_population := by
    intro a ha
    simp only [lonely_population, List.mem_cons, List.mem_replicate] at ha
    rcases ha with h | ⟨_, h⟩ <;> subst h <;> simp [agent_at, LANES]
  ⟨rfl, hr, C7_get_attendance_sum lonely_population main_highway rfl hr⟩

/-- C8. Let the lookup table have an entry for every occupancy `0 .. NUM_AGENTS`
(as `make_lookup` leaves it) and let the population have `NUM_AGENTS` agents.
Whatever `attendance`, `lane_local`, `lane_difference` and `global` held
before, after `act` and then `evaluate`: `lane_local` and `lane_difference`
have exactly `LANES` entries; for every lane `l` with attendance `a`,
`lane_local[l] = highway_lookup[a]` and `lane_difference[l]` is 0 when `a = 0`
and `highway_lookup[a] - highway_lookup[a - 1]` otherwise; and `global` is the
sum of `lane_local`. -/
theorem C8_evaluate_after_act (pA : List QLearner) (pE : highway)
    (hlen : pA.length = NUM_AGENTS) (htbl : NUM_AGENTS < pE.highway_lookup.length) :
    ∃ pA1 pE1 pE2, act pA pE = .ok (pA1, pE1) ∧ pE1.evaluate = .ok pE2 ∧
      pE2.highway_lookup = pE.highway_lookup ∧
      pE2.lane_local.length = LANES ∧ pE2.lane_difference.length = LANES ∧
      (∀ l, l < LANES → ∃ a : Int, pE2.attendance[l]? = some a ∧
        0 ≤ a ∧ a.toNat < pE2.highway_lookup.length ∧
        pE2.lane_local[l]? = pE2.highway_lookup[a.toNat]? ∧
        pE2.lane_difference[l]? = some (if a = 0 then 0
          else pE2.highway_lookup.getD a.toNat 0 - pE2.highway_lookup.getD (a - 1).toNat 0)) ∧
      pE2.global = pE2.lane_local.sum := by
  have hin : attendance_in_table
      { pE.start with attendance := (List.range LANES).map (lane_count (pA.map move)) } := by
    intro a ha
    obtain ⟨h0, h1⟩ := lane_counts_mem (pA.map move) a ha
    refine ⟨h0, ?_⟩
    show a.toNat < pE.highway_lookup.length
    have h2 : a ≤ (NUM_AGENTS : Int) := by
      rw [List.length_map, hlen] at h1
      exact h1
    have h3 : a.toNat ≤ NUM_AGENTS := by omega
    omega
  refine ⟨_, _, _, act_ok pA pE hlen, evaluate_ok _ hin, rfl, ?_, ?_, ?_, ?_⟩
  · simp [highway.start]
  · simp [highway.start]
  · intro l hl
    obtain ⟨h0, h1⟩ := hin _ (List.getElem?_mem (lane_counts_get (pA.map move) l hl))
    refine ⟨lane_count (pA.map move) l, lane_counts_get (pA.map move) l hl, h0, h1, ?_, ?_⟩
    · show ((pE.start.lane_local ++ ((List.range LANES).map (lane_count (pA.map move))).map
        (local_of pE.highway_lookup)))[l]? = _
      rw [show pE.start.lane_local = [] from rfl, List.nil_append, List.getElem?_map,
        lane_counts_get (pA.map move) l hl]
      exact (getElem?_getD _ _ h1).symm
    · show ((pE.start.lane_difference ++ ((List.range LANES).map
        (lane_count (pA.map move))).map (difference_of pE.highway_lookup)))[l]? = _
      rw [show pE.start.lane_difference = [] from rfl, List.nil_append, List.getElem?_map,
        lane_counts_get (pA.map move) l hl]
      rfl
  · show pE.start.global + _ = (pE.start.lane_local ++ _).sum
    rw [show pE.start.lane_local = [] from rfl, show pE.start.global = 0 from rfl,
      List.nil_append, zero_add]

/-- Witness of C8: the set-up of `main` with one agent in lane 0 and 99 in lane 1. -/
theorem C8_evaluate_after_act_witness :
    lonely_population.length = NUM_AGENTS ∧
    NUM_AGENTS < main_highway.highway_lookup.length ∧
    ∃ pA1 pE1 pE2, act lonely_population main_highway = .ok (pA1, pE1) ∧
      pE1.evaluate = .ok pE2 ∧
      pE2.highway_lookup = main_highway.highway_lookup ∧
      pE2.lane_local.length = LANES ∧ pE2.lane_difference.length = LANES ∧
      (∀ l, l < LANES → ∃ a : Int, pE2.attendance[l]? = some a ∧
        0 ≤ a ∧ a.toNat < pE2.highway_lookup.length ∧
        pE2.lane_local[l]? = pE2.highway_lookup[a.toNat]? ∧
        pE2.lane_difference[l]? = some (if a = 0 then 0
          else pE2.highway_lookup.getD a.toNat 0 - pE2.highway_lookup.getD (a - 1).toNat 0)) ∧
      pE2.global = pE2.lane_local.sum :=
  have htbl : NUM_AGENTS < main_highway.highway_lookup.length := by
    rw [main_highway, make_lookup_length]
    exact Nat.lt_succ_self _
  ⟨rfl, htbl, C8_evaluate_after_act lonely_population main_highway rfl htbl⟩

/-- C9. After `make_lookup`, whatever the table held before, `highway_lookup`
has exactly `NUM_AGENTS + 1` entries, entry `x` is `x * exp(-x / CAPACITY)`
(real division) for every `x` in `[0, NUM_AGENTS]`, and entry 0 is 0. -/
theorem C9_make_lookup_table (pE : highway) :
    pE.make_lookup.highway_lookup.length = NUM_AGENTS + 1 ∧
    (∀ x : Nat, x ≤ NUM_AGENTS → pE.make_lookup.highway_lookup[x]?
      = some ((x : ℝ) * Real.exp (-(x : ℝ) / (CAPACITY : ℝ)))) ∧
    pE.make_lookup.highway_lookup[0]? = some 0 := by
  refine ⟨make_lookup_length pE, fun x hx => make_lookup_get pE x hx, ?_⟩
  rw [make_lookup_get pE 0 (Nat.zero_le _)]
  simp [payoff]

/-- C10. The table built by `make_lookup` has `NUM_AGENTS + 1` entries, it
increases strictly from each index below `CAPACITY` to the next, decreases
strictly from each index `x` with `CAPACITY ≤ x < NUM_AGENTS` to the next, and
its entry at `CAPACITY = 6` is strictly greater than every other entry. -/
theorem C10_lookup_unimodal (pE : highway) :
    pE.make_lookup.highway_lookup.length = NUM_AGENTS + 1 ∧
    (∀ x : Nat, x < CAPACITY →
      pE.make_lookup.highway_lookup.getD x 0 < pE.make_lookup.highway_lookup.getD (x + 1) 0) ∧
    (∀ x : Nat, CAPACITY ≤ x → x < NUM_AGENTS →
      pE.make_lookup.highway_lookup.getD x 0 > pE.make_lookup.highway_lookup.getD (x + 1) 0) ∧
    CAPACITY = 6 ∧
    (∀ x : Nat, x ≤ NUM_AGENTS → x ≠ CAPACITY →
      pE.make_lookup.highway_lookup.getD x 0 < pE.make_lookup.highway_lookup.getD CAPACITY 0) := by
  have hget : ∀ x : Nat, x ≤ NUM_AGENTS → pE.make_lookup.highway_lookup.getD x 0 = payoff x := by
    intro x hx
    rw [List.getD_eq_getElem?_getD, make_lookup_get pE x hx]
    rfl
  refine ⟨make_lookup_length pE, ?_, ?_, rfl, ?_⟩
  · intro x hx
    have hx1 : x + 1 ≤ NUM_AGENTS := by simp only [CAPACITY, NUM_AGENTS] at hx ⊢; omega
    rw [hget x (Nat.le_of_succ_le hx1), hget (x + 1) hx1]
    exact payoff_lt_succ x hx
  · intro x hx hn
    rw [hget x (Nat.le_of_lt hn), hget (x + 1) hn]
    exact payoff_gt_succ x hx
  · intro x hx hne
    rw [hget x hx, hget CAPACITY (by decide)]
    exact payoff_lt_peak x hne

/-! ## Auxiliary lemmas: group attendance and group reward -/

theorem group_attendance_from (att : List Int) (membersID : List Int) (init : Int)
    (hm : members_in_bounds att membersID) :
    membersID.foldlM (fun acc m => do
      let v ← vec_index att m
      pure (acc + v)) init = .ok (init + member_sum att membersID) := by
  induction membersID generalizing init with
  | nil => simp [member_sum, pure, Except.pure]
  | cons m ms ih =>
    obtain ⟨h0, hlt⟩ := hm m (List.mem_cons_self _ _)
    have hms : members_in_bounds att ms := fun x hx => hm x (List.mem_cons_of_mem _ hx)
    have hget : vec_index att m = .ok (att.getD m.toNat 0) := by
      apply vec_index_int _ _ _ h0
      simp [List.getD_eq_getElem?_getD, List.getElem?_eq_getElem hlt]
    rw [List.foldlM_cons, hget, ok_bind]
    show List.foldlM _ (init + att.getD m.toNat 0) ms = _
    rw [ih (init + att.getD m.toNat 0) hms]
    simp [member_sum, add_assoc]

theorem group_attendance_ok (att : List Int) (membersID : List Int)
    (hm : members_in_bounds att membersID) :
    group_attendance att membersID = .ok (member_sum att membersID) := by
  unfold group_attendance
  rw [group_attendance_from att membersID 0 hm, zero_add]

theorem member_sum_nonneg (att : List Int) (membersID : List Int)
    (hnn : ∀ x ∈ att, 0 ≤ x) : 0 ≤ member_sum att membersID := by
  unfold member_sum
  apply List.sum_nonneg
  intro x hx
  obtain ⟨m, _, hmx⟩ := List.mem_map.1 hx
  rw [← hmx, List.getD_eq_getElem?_getD]
  cases hg : att[m.toNat]? with
  | none => simp
  | some v => exact hnn v (List.getElem?_mem hg)

/-- The truncated quotient `-A / c` of a non-negative `A` by a positive `c` is
minus the floor quotient of `A` by `c`. -/
theorem tdiv_neg_eq (A c : Int) (hA : 0 ≤ A) (hc : 0 < c) : Int.tdiv (-A) c = -(A / c) := by
  rw [Int.neg_tdiv, Int.tdiv_eq_ediv hA (Int.le_of_lt hc)]

/-- The reward that `calcAttendReward` computes, for non-negative attendance
and positive capacity, in terms of the floor quotient. -/
theorem calcAttendReward_floor (s : superLane) (pE : highway) (A : Int)
    (hA : group_attendance pE.attendance s.membersID = .ok A) (h0 : 0 ≤ A)
    (hc : 0 < s.capacity) :
    s.calcAttendReward pE = .ok
      { s with
        attendance := A
        reward := -(A : ℝ) * Real.exp (-(((A / s.capacity : Int)) : ℝ)) } := by
  rw [calcAttendReward_ok s pE A hA (Int.ne_of_gt hc), tdiv_neg_eq A s.capacity h0 hc]
  simp

/-- The map `x * exp(-x)` is strictly decreasing from 1 on. -/
theorem mul_exp_neg_anti (x y : ℝ) (hx : 1 ≤ x) (hxy : x < y) :
    y * Real.exp (-y) < x * Real.exp (-x) := by
  have hd : y - x ≠ 0 := by
    intro h
    linarith
  have he := Real.add_one_lt_exp hd
  have hsplit : Real.exp (-x) = Real.exp (-y) * Real.exp (y - x) := by
    rw [← Real.exp_add]
    congr 1
    ring
  have hpos : 0 < Real.exp (-y) := Real.exp_pos _
  rw [hsplit]
  have hkey : y < x * Real.exp (y - x) := by nlinarith
  nlinarith

theorem floor_div_eq (A c : Int) (hc : 0 < c) : ⌊(A : ℝ) / (c : ℝ)⌋ = A / c := by
  rw [Int.floor_eq_iff]
  have hcr : (0 : ℝ) < c := by exact_mod_cast hc
  have h1 := Int.ediv_add_emod A c
  have h2 := Int.emod_nonneg A (Int.ne_of_gt hc)
  have h3 := Int.emod_lt_of_pos A hc
  constructor
  · rw [le_div_iff₀ hcr]
    have h : (A / c) * c ≤ A := by nlinarith
    exact_mod_cast h
  · rw [div_lt_iff₀ hcr]
    have h : A < (A / c + 1) * c := by nlinarith
    exact_mod_cast h

theorem scenario_rewards :
    mainSuperLanes.mapM (fun s => s.calcAttendReward scenario_highway)
      = .ok scenario_superLanes := by
  have h0 := calcAttendReward_ok (main_superLane 0) scenario_highway 30 rfl (by decide)
  have h1 := calcAttendReward_ok (main_superLane 1) scenario_highway 30 rfl (by decide)
  have h2 := calcAttendReward_ok (main_superLane 2) scenario_highway 40 rfl (by decide)
  rw [mainSuperLanes_eq]
  simp only [List.mapM_cons, List.mapM_nil]
  rw [h0, h1, h2]
  rfl

/-! ## Claims on the group reward -/

/-- C11. Whenever the members of a superlane are lanes of the attendance vector
(and the capacity is not zero), `calcAttendReward` sets the superlane's
attendance to the sum of the attendances of its member lanes. In the scenario
(members `[0, 1]`, `[2]`, `[3, 4, 5]`, capacities 12, 6, 18, lane attendance
`[10, 20, 30, 15, 15, 10]`) the group attendances are 30, 30, 40, the three
rewards are strictly negative, and the reward of superlane 2 is strictly below
the two others. -/
theorem C11_group_attendance_is_member_sum (s : superLane) (pE : highway)
    (hm : members_in_bounds pE.attendance s.membersID) (hc : s.capacity ≠ 0) :
    (∃ s1, s.calcAttendReward pE = .ok s1 ∧
      s1.attendance = member_sum pE.attendance s.membersID) ∧
    mainSuperLanes.map (fun s => s.membersID) = [[0, 1], [2], [3, 4, 5]] ∧
    mainSuperLanes.map (fun s => s.capacity) = [12, 6, 18] ∧
    scenario_highway.attendance = [10, 20, 30, 15, 15, 10] ∧
    ∃ pS1 r0 r1 r2,
      mainSuperLanes.mapM (fun s => s.calcAttendReward scenario_highway) = .ok pS1 ∧
      pS1.map (fun s => s.attendance) = [30, 30, 40] ∧
      pS1.map (fun s => s.reward) = [r0, r1, r2] ∧
      r0 < 0 ∧ r1 < 0 ∧ r2 < 0 ∧ r2 < r0 ∧ r2 < r1 := by
  refine ⟨⟨_, calcAttendReward_ok s pE _ (group_attendance_ok _ _ hm) hc, rfl⟩, rfl, rfl, rfl,
    scenario_superLanes, -30 * Real.exp (-2), -30 * Real.exp (-5), -40 * Real.exp (-2),
    scenario_rewards, rfl, ?_, ?_, ?_, ?_, ?_, ?_⟩
  · have e0 : Int.tdiv (-30) 12 = -2 := by decide
    have e1 : Int.tdiv (-30) 6 = -5 := by decide
    have e2 : Int.tdiv (-40) 18 = -2 := by decide
    simp only [scenario_superLanes, List.map_cons, List.map_nil, e0, e1, e2]
    norm_num
  · have := Real.exp_pos (-2)
    linarith
  · have := Real.exp_pos (-5)
    linarith
  · have := Real.exp_pos (-2)
    linarith
  · have := Real.exp_pos (-2)
    linarith
  · have h2 := Real.exp_pos (-5)
    have hlt : Real.exp (-5) < Real.exp (-2) := Real.exp_lt_exp.2 (by norm_num)
    linarith

/-- Witness of C11: superlane 0 of `main` on the scenario attendance. -/
theorem C11_group_attendance_is_member_sum_witness :
    members_in_bounds scenario_highway.attendance (main_superLane 0).membersID ∧
    (main_superLane 0).capacity ≠ 0 ∧
    ∃ s1, (main_superLane 0).calcAttendReward scenario_highway = .ok s1 ∧
      s1.attendance = member_sum scenario_highway.attendance (main_superLane 0).membersID :=
  have hm : members_in_bounds scenario_highway.attendance (main_superLane 0).membersID := by
    unfold members_in_bounds
    decide
  ⟨hm, by decide,
    (C11_group_attendance_is_member_sum (main_superLane 0) scenario_highway hm (by decide)).1⟩

/-- C12. For a superlane of positive capacity whose members are lanes of an
attendance vector with non-negative entries, `calcAttendReward` returns, the
reward is at most 0, and it is 0 exactly when the aggregate attendance is 0. -/
theorem C12_reward_nonpositive (s : superLane) (pE : highway) (hc : 0 < s.capacity)
    (hnn : ∀ x ∈ pE.attendance, 0 ≤ x)
    (hm : members_in_bounds pE.attendance s.membersID) :
    ∃ s1, s.calcAttendReward pE = .ok s1 ∧
      s1.attendance = member_sum pE.attendance s.membersID ∧
      s1.reward ≤ 0 ∧ (s1.reward = 0 ↔ s1.attendance = 0) := by
  have h0 := member_sum_nonneg pE.attendance s.membersID hnn
  refine ⟨_, calcAttendReward_floor s pE _ (group_attendance_ok _ _ hm) h0 hc, rfl, ?_, ?_⟩
  · show -((member_sum pE.attendance s.membersID : Int) : ℝ) * Real.exp _ ≤ 0
    have hA : (0 : ℝ) ≤ (member_sum pE.attendance s.membersID : Int) := by exact_mod_cast h0
    have := Real.exp_pos (-(((member_sum pE.attendance s.membersID / s.capacity : Int)) : ℝ))
    nlinarith
  · show -((member_sum pE.attendance s.membersID : Int) : ℝ) * Real.exp _ = 0
      ↔ member_sum pE.attendance s.membersID = 0
    have hne := (Real.exp_pos
      (-(((member_sum pE.attendance s.membersID / s.capacity : Int)) : ℝ))).ne.symm
    constructor
    · intro h
      rcases mul_eq_zero.1 h with h1 | h1
      · have h2 : ((member_sum pE.attendance s.membersID : Int) : ℝ) = 0 := by linarith
        exact_mod_cast h2
      · exact absurd h1 (Real.exp_pos _).ne.symm
    · intro h
      rw [h]
      simp

/-- Witness of C12: superlane 0 of `main` on the scenario attendance. -/
theorem C12_reward_nonpositive_witness :
    0 < (main_superLane 0).capacity ∧ (∀ x ∈ scenario_highway.attendance, 0 ≤ x) ∧
    members_in_bounds scenario_highway.attendance (main_superLane 0).membersID ∧
    ∃ s1, (main_superLane 0).calcAttendReward scenario_highway = .ok s1 ∧
      s1.attendance = member_sum scenario_highway.attendance (main_superLane 0).membersID ∧
      s1.reward ≤ 0 ∧ (s1.reward = 0 ↔ s1.attendance = 0) :=
  have hm : members_in_bounds scenario_highway.attendance (main_superLane 0).membersID := by
    unfold members_in_bounds
    decide
  have hnn : ∀ x ∈ scenario_highway.attendance, 0 ≤ x := by decide
  ⟨by decide, hnn, hm,
    C12_reward_nonpositive (main_superLane 0) scenario_highway (by decide) hnn hm⟩

/-- C13 (counterexample). Superlane 1 of `main` (member lane 2, capacity 6):
with 6 agents in lane 2 the reward is `-6 * exp(-1)`, with 12 agents it is
`-12 * exp(-2)`, which is not below the former although `6 ≤ 6 < 12`. -/
theorem C13_reward_not_decreasing_past_capacity :
    ∃ sa sb,
      (main_superLane 1).calcAttendReward (highway_of_attendance [94, 0, 6, 0, 0, 0]) = .ok sa ∧
      (main_superLane 1).calcAttendReward (highway_of_attendance [88, 0, 12, 0, 0, 0]) = .ok sb ∧
      sa.capacity = 6 ∧ sa.attendance = 6 ∧ sb.attendance = 12 ∧
      sa.reward = -6 * Real.exp (-1) ∧ sb.reward = -12 * Real.exp (-2) ∧
      ¬ (sb.reward < sa.reward) := by
  have ha := calcAttendReward_ok (main_superLane 1) (highway_of_attendance [94, 0, 6, 0, 0, 0])
    6 rfl (by decide)
  have hb := calcAttendReward_ok (main_superLane 1) (highway_of_attendance [88, 0, 12, 0, 0, 0])
    12 rfl (by decide)
  have e6 : Int.tdiv (-6) (main_superLane 1).capacity = -1 := by decide
  have e12 : Int.tdiv (-12) (main_superLane 1).capacity = -2 := by decide
  rw [e6] at ha
  rw [e12] at hb
  have ra : ((-6 : Int) : ℝ) * Real.exp (((-1 : Int)) : ℝ) = -6 * Real.exp (-1) := by norm_num
  have rb : ((-12 : Int) : ℝ) * Real.exp (((-2 : Int)) : ℝ) = -12 * Real.exp (-2) := by norm_num
  refine ⟨_, _, ha, hb, rfl, rfl, rfl, ra, rb, ?_⟩
  show ¬ (((-12 : Int) : ℝ) * Real.exp (((-2 : Int)) : ℝ)
    < ((-6 : Int) : ℝ) * Real.exp (((-1 : Int)) : ℝ))
  rw [ra, rb]
  have h := mul_exp_neg_anti 1 2 (le_refl 1) (by norm_num)
  linarith

/-- C13 (amended). For a superlane of capacity `c > 0` and aggregate
attendances `a = k * c` and `b = m * c` with `1 ≤ k < m` (multiples of the
capacity with `c ≤ a < b`), `calcAttendReward` returns in both cases and the
reward at `b` is strictly greater (less negative) than the reward at `a`. -/
theorem C13_reward_increases_at_multiples (s : superLane) (pEa pEb : highway) (k m : Int)
    (hc : 0 < s.capacity) (hk : 1 ≤ k) (hkm : k < m)
    (ha : group_attendance pEa.attendance s.membersID = .ok (k * s.capacity))
    (hb : group_attendance pEb.attendance s.membersID = .ok (m * s.capacity)) :
    ∃ sa sb, s.calcAttendReward pEa = .ok sa ∧ s.calcAttendReward pEb = .ok sb ∧
      sa.attendance = k * s.capacity ∧ sb.attendance = m * s.capacity ∧
      s.capacity ≤ sa.attendance ∧ sa.attendance < sb.attendance ∧
      sa.reward < sb.reward := by
  have hcne : s.capacity ≠ 0 := Int.ne_of_gt hc
  have hka : 0 ≤ k * s.capacity := Int.mul_nonneg (by omega) (Int.le_of_lt hc)
  have hma : 0 ≤ m * s.capacity := Int.mul_nonneg (by omega) (Int.le_of_lt hc)
  refine ⟨_, _, calcAttendReward_floor s pEa _ ha hka hc,
    calcAttendReward_floor s pEb _ hb hma hc, rfl, rfl, ?_, ?_, ?_⟩
  · show s.capacity ≤ k * s.capacity
    nlinarith
  · show k * s.capacity < m * s.capacity
    nlinarith
  · show -((k * s.capacity : Int) : ℝ) * Real.exp (-(((k * s.capacity / s.capacity : Int)) : ℝ))
      < -((m * s.capacity : Int) : ℝ) * Real.exp (-(((m * s.capacity / s.capacity : Int)) : ℝ))
    rw [Int.mul_ediv_cancel k hcne, Int.mul_ediv_cancel m hcne]
    have hanti := mul_exp_neg_anti (k : ℝ) (m : ℝ) (by exact_mod_cast hk) (by exact_mod_cast hkm)
    have hcr : (0 : ℝ) < (s.capacity : ℝ) := by exact_mod_cast hc
    push_cast
    nlinarith

/-- Witness of C13 (amended): superlane 1 of `main` with 6 and with 12 agents
in lane 2. -/
theorem C13_reward_increases_at_multiples_witness :
    0 < (main_superLane 1).capacity ∧ (1 : Int) ≤ 1 ∧ (1 : Int) < 2 ∧
    group_attendance (highway_of_attendance [94, 0, 6, 0, 0, 0]).attendance
      (main_superLane 1).membersID = .ok (1 * (main_superLane 1).capacity) ∧
    group_attendance (highway_of_attendance [88, 0, 12, 0, 0, 0]).attendance
      (main_superLane 1).membersID = .ok (2 * (main_superLane 1).capacity) ∧
    ∃ sa sb,
      (main_superLane 1).calcAttendReward (highway_of_attendance [94, 0, 6, 0, 0, 0]) = .ok sa ∧
      (main_superLane 1).calcAttendReward (highway_of_attendance [88, 0, 12, 0, 0, 0]) = .ok sb ∧
      sa.attendance = 1 * (main_superLane 1).capacity ∧
      sb.attendance = 2 * (main_superLane 1).capacity ∧
      (main_superLane 1).capacity ≤ sa.attendance ∧ sa.attendance < sb.attendance ∧
      sa.reward < sb.reward :=
  ⟨by decide, by decide, by decide, rfl, rfl,
    C13_reward_increases_at_multiples (main_superLane 1)
      (highway_of_attendance [94, 0, 6, 0, 0, 0]) (highway_of_attendance [88, 0, 12, 0, 0, 0])
      1 2 (by decide) (by decide) (by decide) rfl rfl⟩

/-- C15. After `setMembers`, whatever `capacity` and `membersID` held before,
the capacity is `CAPACITY` times the number of entries of `membersID`; the
superlanes built by `main` have the capacities 12, 6, 18, whose sum is
`LANES * CAPACITY = 36`. -/
theorem C15_capacity_is_capacity_times_members (s : superLane) :
    s.setMembers.capacity = (CAPACITY : Int) * (s.setMembers.membersID.length : Int) ∧
    s.setMembers.membersID = members_of s.id ∧
    mainSuperLanes.map (fun s => s.capacity) = [12, 6, 18] ∧
    (mainSuperLanes.map (fun s => s.capacity)).sum = ((LANES * CAPACITY : Nat) : Int) ∧
    LANES * CAPACITY = 36 :=
  ⟨rfl, by simp [superLane.setMembers], rfl, rfl, rfl⟩

/-- C18. For a superlane of capacity `c > 0` and aggregate attendance `A ≥ 0`,
`calcAttendReward` sets the reward to `-A * exp(-⌊A / c⌋)`; so the reward is
`-A` whenever `A < c`, and it equals `-A * exp(-A / c)` with the real quotient
exactly when `A` is a multiple of `c`. -/
theorem C18_reward_uses_truncated_quotient (s : superLane) (pE : highway) (A : Int)
    (hA : group_attendance pE.attendance s.membersID = .ok A) (h0 : 0 ≤ A)
    (hc : 0 < s.capacity) :
    ∃ s1, s.calcAttendReward pE = .ok s1 ∧ s1.attendance = A ∧
      s1.reward = -(A : ℝ) * Real.exp (-((⌊(A : ℝ) / (s.capacity : ℝ)⌋ : Int) : ℝ)) ∧
      (A < s.capacity → s1.reward = -(A : ℝ)) ∧
      (s1.reward = -(A : ℝ) * Real.exp (-((A : ℝ) / (s.capacity : ℝ))) ↔ s.capacity ∣ A) := by
  have hcr : (0 : ℝ) < (s.capacity : ℝ) := by exact_mod_cast hc
  have hcne : s.capacity ≠ 0 := Int.ne_of_gt hc
  refine ⟨_, calcAttendReward_floor s pE A hA h0 hc, rfl, ?_, ?_, ?_⟩
  · show -(A : ℝ) * Real.exp (-(((A / s.capacity : Int)) : ℝ)) = _
    rw [floor_div_eq A s.capacity hc]
  · intro hlt
    show -(A : ℝ) * Real.exp (-(((A / s.capacity : Int)) : ℝ)) = _
    rw [Int.ediv_eq_zero_of_lt h0 hlt]
    simp
  · show -(A : ℝ) * Real.exp (-(((A / s.capacity : Int)) : ℝ))
      = -(A : ℝ) * Real.exp (-((A : ℝ) / (s.capacity : ℝ))) ↔ s.capacity ∣ A
    constructor
    · intro h
      by_cases hz : A = 0
      · rw [hz]
        exact Int.dvd_zero _
      · have hAr : -(A : ℝ) ≠ 0 := by
          intro hc0
          apply hz
          have : (A : ℝ) = 0 := by linarith
          exact_mod_cast this
        have h1 := Real.exp_injective (mul_left_cancel₀ hAr h)
        have h2 : (((A / s.capacity : Int)) : ℝ) * (s.capacity : ℝ) = (A : ℝ) := by
          have h3 : (((A / s.capacity : Int)) : ℝ) = (A : ℝ) / (s.capacity : ℝ) := by linarith
          rw [h3]
          field_simp
        have h4 : A / s.capacity * s.capacity = A := by exact_mod_cast h2
        exact ⟨A / s.capacity, by rw [Int.mul_comm]; exact h4.symm⟩
    · intro hdvd
      obtain ⟨t, ht⟩ := hdvd
      have hq : A / s.capacity = t := by
        rw [ht, Int.mul_ediv_cancel_left t hcne]
      have hr : (A : ℝ) / (s.capacity : ℝ) = (t : ℝ) := by
        rw [ht]
        push_cast
        field_simp
      rw [hq, hr]

/-- Witness of C18: superlane 0 of `main` on the scenario attendance
(`A = 30`, `c = 12`). -/
theorem C18_reward_uses_truncated_quotient_witness :
    group_attendance scenario_highway.attendance (main_superLane 0).membersID = .ok 30 ∧
    (0 : Int) ≤ 30 ∧ 0 < (main_superLane 0).capacity ∧
    ∃ s1, (main_superLane 0).calcAttendReward scenario_highway = .ok s1 ∧ s1.attendance = 30 ∧
      s1.reward = -((30 : Int) : ℝ)
        * Real.exp (-((⌊((30 : Int) : ℝ) / ((main_superLane 0).capacity : ℝ)⌋ : Int) : ℝ)) ∧
      ((30 : Int) < (main_superLane 0).capacity → s1.reward = -((30 : Int) : ℝ)) ∧
      (s1.reward = -((30 : Int) : ℝ)
        * Real.exp (-(((30 : Int) : ℝ) / ((main_superLane 0).capacity : ℝ)))
        ↔ (main_superLane 0).capacity ∣ 30) :=
  ⟨rfl, by decide, by decide,
    C18_reward_uses_truncated_quotient (main_superLane 0) scenario_highway 30 rfl
      (by decide) (by decide)⟩

/-! ## Claims on the agents -/

theorem sense_ok (pA : List QLearner) (hlen : pA.length = NUM_AGENTS) :
    sense pA = .ok (pA.map remember) := by
  have h := range_loop_set remember pA NUM_AGENTS (Nat.le_of_eq hlen.symm)
  rw [← hlen] at h
  simp only [List.take_length, List.drop_length, List.append_nil] at h
  unfold sense
  rw [← hlen]
  exact h

theorem move_remember (a : QLearner) :
    (move (remember a)).previousState = a.state ∧
    (move (remember a)).state = clamp (a.state + (a.action - 1)) 0 ((LANES : Int) - 1) := by
  unfold move remember clamp
  simp only [LANES]
  split_ifs with h1 h2
  · simp only at h1 ⊢
    exact ⟨trivial, by omega⟩
  · simp only at h1 h2 ⊢
    exact ⟨trivial, by omega⟩
  · simp only at h1 h2 ⊢
    exact ⟨trivial, by omega⟩

/-- C14. On a population of `NUM_AGENTS` agents, `sense` and then `act` return,
and every agent that had state `s` and action `a` (any integers) ends with
`previousState = s` and `state = clamp(s + (a - 1), 0, LANES - 1)`; the new
state is in `[0, LANES - 1]`, and when `s` is in `[0, LANES - 1]` and `a` is 0,
1 or 2 the new state differs from `previousState` by -1, 0 or 1. -/
theorem C14_sense_then_act (pA : List QLearner) (pE : highway)
    (hlen : pA.length = NUM_AGENTS) :
    ∃ pA1 pA2 pE2, sense pA = .ok pA1 ∧ act pA1 pE = .ok (pA2, pE2) ∧
      pA2.length = NUM_AGENTS ∧
      ∀ i, i < NUM_AGENTS → ∃ a b, pA[i]? = some a ∧ pA2[i]? = some b ∧
        b.previousState = a.state ∧
        b.state = clamp (a.state + (a.action - 1)) 0 ((LANES : Int) - 1) ∧
        0 ≤ b.state ∧ b.state ≤ (LANES : Int) - 1 ∧
        (0 ≤ a.state → a.state ≤ (LANES : Int) - 1 →
          a.action = 0 ∨ a.action = 1 ∨ a.action = 2 →
          b.state - b.previousState = -1 ∨ b.state - b.previousState = 0 ∨
            b.state - b.previousState = 1) := by
  have hlen1 : (pA.map remember).length = NUM_AGENTS := by simpa using hlen
  refine ⟨_, _, _, sense_ok pA hlen, act_ok (pA.map remember) pE hlen1, by simpa using hlen, ?_⟩
  intro i hi
  have hlt : i < pA.length := by omega
  obtain ⟨hp, hs⟩ := move_remember pA[i]
  refine ⟨pA[i], move (remember pA[i]), List.getElem?_eq_getElem hlt, ?_, hp, hs, ?_, ?_, ?_⟩
  · simp [List.getElem?_eq_getElem hlt]
  · rw [hs]
    unfold clamp
    simp only [LANES]
    omega
  · rw [hs]
    unfold clamp
    simp only [LANES]
    omega
  · intro h0 h5 hact
    rw [hs, hp]
    unfold clamp
    simp only [LANES] at h5 ⊢
    rcases hact with h | h | h <;> rw [h] <;> omega

/-- Witness of C14: a population of `NUM_AGENTS` agents in lane 0 that all
choose action 2. -/
theorem C14_sense_then_act_witness :
    (List.replicate NUM_AGENTS mover).length = NUM_AGENTS ∧
    ∃ pA1 pA2 pE2, sense (List.replicate NUM_AGENTS mover) = .ok pA1 ∧
      act pA1 main_highway = .ok (pA2, pE2) ∧
      pA2.length = NUM_AGENTS ∧
      ∀ i, i < NUM_AGENTS → ∃ a b, (List.replicate NUM_AGENTS mover)[i]? = some a ∧
        pA2[i]? = some b ∧
        b.previousState = a.state ∧
        b.state = clamp (a.state + (a.action - 1)) 0 ((LANES : Int) - 1) ∧
        0 ≤ b.state ∧ b.state ≤ (LANES : Int) - 1 ∧
        (0 ≤ a.state → a.state ≤ (LANES : Int) - 1 →
          a.action = 0 ∨ a.action = 1 ∨ a.action = 2 →
          b.state - b.previousState = -1 ∨ b.state - b.previousState = 0 ∨
            b.state - b.previousState = 1) :=
  ⟨List.length_replicate _ _,
    C14_sense_then_act (List.replicate NUM_AGENTS mover) main_highway
      (List.length_replicate _ _)⟩

/-- C17. With a learning rate `α` in `(0, 1]`, one `Qupdate` replaces
`Q[previousState, action]` by `Q + α * (target - Q)` where
`target = reward + γ * max_a Q[newState, a]`, and leaves the other entries
alone; the new value lies between the old value and the target, its distance
to the target is `(1 - α)` times the old distance, hence strictly smaller when
the old value differs from the target. -/
theorem C17_Qupdate_moves_toward_target (Q : Int → Int → ℝ) (alpha gamma reward : ℝ)
    (previousState action state : Int) (h0 : 0 < alpha) (h1 : alpha ≤ 1) :
    Qupdate Q alpha gamma reward previousState action state previousState action
      = Q previousState action
        + alpha * ((reward + gamma * max_Q Q state) - Q previousState action) ∧
    (∀ s a, ¬ (s = previousState ∧ a = action) →
      Qupdate Q alpha gamma reward previousState action state s a = Q s a) ∧
    min (Q previousState action) (reward + gamma * max_Q Q state)
      ≤ Qupdate Q alpha gamma reward previousState action state previousState action ∧
    Qupdate Q alpha gamma reward previousState action state previousState action
      ≤ max (Q previousState action) (reward + gamma * max_Q Q state) ∧
    |Qupdate Q alpha gamma reward previousState action state previousState action
        - (reward + gamma * max_Q Q state)|
      = (1 - alpha) * |Q previousState action - (reward + gamma * max_Q Q state)| ∧
    (Q previousState action ≠ reward + gamma * max_Q Q state →
      |Qupdate Q alpha gamma reward previousState action state previousState action
          - (reward + gamma * max_Q Q state)|
        < |Q previousState action - (reward + gamma * max_Q Q state)|) := by
  have hval : Qupdate Q alpha gamma reward previousState action state previousState action
      = Q previousState action
        + alpha * ((reward + gamma * max_Q Q state) - Q previousState action) := by
    simp [Qupdate]
  have hdist : |Qupdate Q alpha gamma reward previousState action state previousState action
        - (reward + gamma * max_Q Q state)|
      = (1 - alpha) * |Q previousState action - (reward + gamma * max_Q Q state)| := by
    rw [hval]
    have hfac : Q previousState action
        + alpha * ((reward + gamma * max_Q Q state) - Q previousState action)
        - (reward + gamma * max_Q Q state)
        = (1 - alpha) * (Q previousState action - (reward + gamma * max_Q Q state)) := by ring
    rw [hfac, abs_mul, abs_of_nonneg (by linarith : (0 : ℝ) ≤ 1 - alpha)]
  refine ⟨hval, ?_, ?_, ?_, hdist, ?_⟩
  · intro s a hne
    simp [Qupdate, hne]
  · rw [hval]
    rcases le_total (Q previousState action) (reward + gamma * max_Q Q state) with h | h
    · rw [min_eq_left h]
      nlinarith
    · rw [min_eq_right h]
      nlinarith
  · rw [hval]
    rcases le_total (Q previousState action) (reward + gamma * max_Q Q state) with h | h
    · rw [max_eq_right h]
      nlinarith
    · rw [max_eq_left h]
      nlinarith
  · intro hne
    rw [hdist]
    have hpos : 0 < |Q previousState action - (reward + gamma * max_Q Q state)| :=
      abs_pos.2 (sub_ne_zero.2 hne)
    nlinarith

/-- Witness of C17: learning rate `1 / 2` on the table that is 0 everywhere. -/
theorem C17_Qupdate_moves_toward_target_witness :
    (0 : ℝ) < 1 / 2 ∧ (1 / 2 : ℝ) ≤ 1 ∧
    Qupdate (fun _ _ => 0) (1 / 2) 1 1 0 1 1 0 1
      = (fun _ _ => (0 : ℝ)) 0 1
        + 1 / 2 * ((1 + 1 * max_Q (fun _ _ => 0) 1) - (fun _ _ => (0 : ℝ)) 0 1) :=
  ⟨by norm_num, by norm_num,
    (C17_Qupdate_moves_toward_target (fun _ _ => 0) (1 / 2) 1 1 0 1 1
      (by norm_num) (by norm_num)).1⟩

/-! ## Auxiliary lemmas: loops whose body can fail -/

theorem error_bind {α β : Type} (e : Fault) (f : α → Except Fault β) :
    ((Except.error e : Except Fault α) >>= f) = Except.error e := rfl

theorem take_map_drop_get {α : Type} (f : α → α) (v : List α) (i : Nat) (a : α)
    (ha : v[i]? = some a) : ((v.take i).map f ++ v.drop i)[i]? = some a := by
  rw [List.getElem?_append_right (by simp)]
  simp only [List.length_map, List.length_take]
  rw [List.getElem?_drop]
  have hlt : i < v.length := by
    rcases Nat.lt_or_ge i v.length with h | h
    · exact h
    · rw [List.getElem?_eq_none h] at ha
      cases ha
  have hidx : i + (i - min i v.length) = i := by
    rw [Nat.min_eq_left (Nat.le_of_lt hlt)]
    omega
  rw [hidx]
  exact ha

theorem take_map_drop_set {α : Type} (f : α → α) (v : List α) (i : Nat) (a : α)
    (ha : v[i]? = some a) :
    ((v.take i).map f ++ v.drop i).set i (f a)
      = (v.take (i + 1)).map f ++ v.drop (i + 1) := by
  have hlt : i < v.length := by
    rcases Nat.lt_or_ge i v.length with h | h
    · exact h
    · rw [List.getElem?_eq_none h] at ha
      cases ha
  have hav : v[i] = a := by
    rw [List.getElem?_eq_getElem hlt] at ha
    exact Option.some.inj ha
  apply List.ext_getElem?
  intro j
  rw [List.getElem?_set]
  have hwl : ((v.take i).map f ++ v.drop i).length = v.length := by
    simp [Nat.min_eq_left (Nat.le_of_lt hlt)]
    omega
  rw [hwl]
  by_cases hij : i = j
  · subst hij
    simp only [if_true, hlt]
    rw [List.getElem?_append_left (by simp [Nat.min_eq_left hlt])]
    simp [List.getElem?_take, List.getElem?_eq_getElem hlt, hav]
  · simp only [hij, if_false]
    by_cases hji : j < i
    · rw [List.getElem?_append_left (by simp [Nat.min_eq_left (Nat.le_of_lt hlt)]; exact hji),
        List.getElem?_append_left (by simp [Nat.min_eq_left hlt]; omega)]
      simp [List.getElem?_take, hji, Nat.lt_succ_of_lt hji]
    · have hgt : i + 1 ≤ j := by omega
      rw [List.getElem?_append_right (by simp [Nat.min_eq_left (Nat.le_of_lt hlt)]; omega),
        List.getElem?_append_right (by simp [Nat.min_eq_left hlt]; omega)]
      simp [Nat.min_eq_left (Nat.le_of_lt hlt), Nat.min_eq_left hlt]
      congr 1
      omega

/-- A counted loop that reads element `i`, computes something that may fail
from it, and writes the element back: when the computation succeeds on the
first `n` elements, the loop returns the list with those elements rewritten. -/
theorem range_loop_try_ok {α ρ : Type} (g : α → Except Fault ρ) (h : α → ρ → α) (r : α → ρ)
    (v : List α) (n : Nat) (hn : n ≤ v.length)
    (hg : ∀ j a, j < n → v[j]? = some a → g a = .ok (r a)) :
    (List.range n).foldlM (fun (w : List α) (i : Nat) => do
        let a ← vec_at w i
        let x ← g a
        pure (w.set i (h a x))) v
      = .ok ((v.take n).map (fun a => h a (r a)) ++ v.drop n) := by
  obtain ⟨s, hs, hinv⟩ := range_loop_ok
    (fun (w : List α) (i : Nat) => do
        let a ← vec_at w i
        let x ← g a
        pure (w.set i (h a x)))
    (fun i w => w = (v.take i).map (fun a => h a (r a)) ++ v.drop i) n v (by simp)
    (by
      intro i w hi hw
      have hlt : i < v.length := Nat.lt_of_lt_of_le hi hn
      have hvi : v[i]? = some v[i] := List.getElem?_eq_getElem hlt
      refine ⟨w.set i (h v[i] (r v[i])), ?_, ?_⟩
      · show (vec_at w (i : Int) >>= fun a => g a >>= fun x => pure (w.set i (h a x))) = _
        rw [vec_at_nat w i v[i] (by rw [hw]; exact take_map_drop_get _ v i _ hvi), ok_bind,
          hg i v[i] hi hvi, ok_bind]
        rfl
      · rw [hw]
        exact take_map_drop_set (fun a => h a (r a)) v i v[i] hvi)
  rw [hs, hinv]

/-- The same loop when the computation fails with the fault `e` on one of the
first `n` elements and, on each of them, either succeeds or fails with `e`:
the loop fails with `e`. -/
theorem range_loop_try_error {α ρ : Type} (g : α → Except Fault ρ) (h : α → ρ → α)
    (r : α → ρ) (e : Fault) (v : List α) (n : Nat) (hn : n ≤ v.length)
    (hg : ∀ j a, j < n → v[j]? = some a → g a = .ok (r a) ∨ g a = .error e)
    (hbad : ∃ j a, j < n ∧ v[j]? = some a ∧ g a = .error e) :
    (List.range n).foldlM (fun (w : List α) (i : Nat) => do
        let a ← vec_at w i
        let x ← g a
        pure (w.set i (h a x))) v
      = .error e := by
  induction n with
  | zero =>
    obtain ⟨j, _, hj, _⟩ := hbad
    exact absurd hj (Nat.not_lt_zero j)
  | succ k ih =>
    have hk : k ≤ v.length := Nat.le_of_succ_le hn
    rw [List.range_succ, List.foldlM_append]
    by_cases hearlier : ∃ j a, j < k ∧ v[j]? = some a ∧ g a = .error e
    · rw [ih hk (fun j a hj ha => hg j a (Nat.lt_succ_of_lt hj) ha) hearlier]
      rfl
    · have hall : ∀ j a, j < k → v[j]? = some a → g a = .ok (r a) := by
        intro j a hj ha
        rcases hg j a (Nat.lt_succ_of_lt hj) ha with h1 | h1
        · exact h1
        · exact absurd ⟨j, a, hj, ha, h1⟩ hearlier
      rw [range_loop_try_ok g h r v k hk hall, ok_bind]
      obtain ⟨j, a, hj, ha, hga⟩ := hbad
      have hjk : j = k := by
        rcases Nat.lt_or_ge j k with h1 | h1
        · exact absurd ⟨j, a, h1, ha, hga⟩ hearlier
        · omega
      subst hjk
      simp only [List.foldlM_cons, List.foldlM_nil]
      rw [vec_at_nat _ j a (take_map_drop_get _ v j a ha), ok_bind, hga]
      rfl

/-! ## Auxiliary lemmas: `react` under the set-up of `main` -/

theorem moved_in_table (pA : List QLearner) (pE : highway) (hlen : pA.length = NUM_AGENTS)
    (htbl : NUM_AGENTS < pE.highway_lookup.length) :
    attendance_in_table (moved_highway pA pE) := by
  intro a ha
  obtain ⟨h0, h1⟩ := lane_counts_mem (pA.map move) a ha
  refine ⟨h0, ?_⟩
  show a.toNat < pE.highway_lookup.length
  have h2 : a ≤ (NUM_AGENTS : Int) := by
    rw [List.length_map, hlen] at h1
    exact h1
  have h3 : a.toNat ≤ NUM_AGENTS := by omega
  omega

theorem evaluate_moved (pA : List QLearner) (pE : highway) (hlen : pA.length = NUM_AGENTS)
    (htbl : NUM_AGENTS < pE.highway_lookup.length) :
    (moved_highway pA pE).evaluate = .ok (evaluated (moved_highway pA pE)) :=
  evaluate_ok _ (moved_in_table pA pE hlen htbl)

theorem main_members_in_bounds (att : List Int) (hlen : att.length = LANES) (i : Nat) :
    members_in_bounds att (main_superLane i).membersID := by
  intro m hm
  rw [hlen]
  simp only [main_superLane, superLane.setMembers, superLane.reset, members_of,
    List.nil_append] at hm
  simp only [LANES]
  split_ifs at hm <;> simp at hm <;> omega

theorem main_groups_ok (pE : highway) (hlen : pE.attendance.length = LANES) :
    mainSuperLanes.mapM (fun s => s.calcAttendReward pE)
      = .ok (mainSuperLanes.map (rewarded pE)) := by
  have h0 := calcAttendReward_ok (main_superLane 0) pE _
    (group_attendance_ok _ _ (main_members_in_bounds pE.attendance hlen 0)) (by decide)
  have h1 := calcAttendReward_ok (main_superLane 1) pE _
    (group_attendance_ok _ _ (main_members_in_bounds pE.attendance hlen 1)) (by decide)
  have h2 := calcAttendReward_ok (main_superLane 2) pE _
    (group_attendance_ok _ _ (main_members_in_bounds pE.attendance hlen 2)) (by decide)
  rw [mainSuperLanes_eq]
  simp only [List.mapM_cons, List.mapM_nil]
  rw [h0, h1, h2]
  rfl

theorem findSuperLane_rewarded (pE : highway) (pS : List superLane) (lane : Int) :
    findSuperLane (pS.map (rewarded pE)) lane = findSuperLane pS lane := by
  induction pS with
  | nil => rfl
  | cons it rest ih =>
    simp only [List.map_cons]
    unfold findSuperLane
    rw [ih]
    rfl

theorem findSuperLane_main_first (lane : Int) (h : lane = 0 ∨ lane = 1) :
    findSuperLane mainSuperLanes lane = .ok 0 := by
  rcases h with h | h <;> subst h <;> rfl

theorem findSuperLane_main_other (lane : Int) (h : ¬ (lane = 0 ∨ lane = 1)) :
    findSuperLane mainSuperLanes lane = .error .out_of_bounds := by
  have habs : lane ∉ (main_superLane 0).membersID := by
    intro hm
    apply h
    simp only [main_superLane, superLane.setMembers, superLane.reset, members_of,
      List.nil_append] at hm
    simpa using hm
  rw [mainSuperLanes_eq]
  unfold findSuperLane
  simp only [deref_absent _ _ habs, bind, Except.bind]

theorem react_rewards_fault (a : QLearner) (pE : highway) (pS : List superLane) (L D : ℝ)
    (att : Int) (e : Fault) (hL : vec_at pE.lane_local a.state = .ok L)
    (hD : vec_at pE.lane_difference a.state = .ok D)
    (hatt : vec_index pE.attendance a.state = .ok att)
    (hg : findSuperLane pS a.state = .error e) :
    react_rewards a pE pS = .error e := by
  unfold react_rewards
  simp only [hL, hD, hatt, hg, ok_bind]
  rfl

theorem read_in_range {α : Type} (v : List α) (i : Int) (h0 : 0 ≤ i)
    (hlt : i < (v.length : Int)) : ∃ x, v[i.toNat]? = some x := by
  have h : i.toNat < v.length := (Int.toNat_lt h0).2 hlt
  exact ⟨v[i.toNat], List.getElem?_eq_getElem h⟩

/-- Under the superlane vector of `main` (after `calcAttendReward`), on an
environment whose three vectors have `LANES` entries: the reward computation
of `react` returns for an agent in lane 0 or 1, and runs into the read past
the end of a membership vector for an agent in any other lane. -/
theorem react_rewards_main (a : QLearner) (pE : highway)
    (hL : pE.lane_local.length = LANES) (hD : pE.lane_difference.length = LANES)
    (hA : pE.attendance.length = LANES) (h0 : 0 ≤ a.state) (h5 : a.state < (LANES : Int)) :
    (a.state = 0 ∨ a.state = 1 →
      react_rewards a pE (mainSuperLanes.map (rewarded pE))
        = .ok (rewards_or_zero pE (mainSuperLanes.map (rewarded pE)) a)) ∧
    (¬ (a.state = 0 ∨ a.state = 1) →
      react_rewards a pE (mainSuperLanes.map (rewarded pE)) = .error .out_of_bounds) := by
  obtain ⟨L, hLget⟩ := read_in_range pE.lane_local a.state h0 (by rw [hL]; exact h5)
  obtain ⟨D, hDget⟩ := read_in_range pE.lane_difference a.state h0 (by rw [hD]; exact h5)
  obtain ⟨att, hAget⟩ := read_in_range pE.attendance a.state h0 (by rw [hA]; exact h5)
  have hLok := vec_at_int _ _ _ h0 hLget
  have hDok := vec_at_int _ _ _ h0 hDget
  have hAok := vec_index_int _ _ _ h0 hAget
  constructor
  · intro hlane
    have hg : findSuperLane (mainSuperLanes.map (rewarded pE)) a.state = .ok 0 := by
      rw [findSuperLane_rewarded, findSuperLane_main_first _ hlane]
    have hres : ∃ r, react_rewards a pE (mainSuperLanes.map (rewarded pE)) = .ok r := by
      by_cases hgt : att > (CAPACITY : Int)
      · exact ⟨_, react_rewards_high a pE _ L D att 0 (rewarded pE (main_superLane 0))
          hLok hDok hAok hg rfl hgt⟩
      · exact ⟨_, react_rewards_low a pE _ L D att 0 hLok hDok hAok hg hgt⟩
    obtain ⟨r, hr⟩ := hres
    rw [hr]
    unfold rewards_or_zero
    rw [hr]
  · intro hlane
    apply react_rewards_fault a pE _ L D att _ hLok hDok hAok
    rw [findSuperLane_rewarded, findSuperLane_main_other _ hlane]

theorem evaluated_moved_lengths (pA : List QLearner) (pE : highway) :
    (evaluated (moved_highway pA pE)).lane_local.length = LANES ∧
    (evaluated (moved_highway pA pE)).lane_difference.length = LANES ∧
    (evaluated (moved_highway pA pE)).attendance.length = LANES := by
  simp [evaluated, moved_highway, highway.start]

theorem react_rewards_moved (pA : List QLearner) (pE : highway) (a : QLearner)
    (ha : a ∈ pA.map move) :
    (a.state = 0 ∨ a.state = 1 →
      react_rewards a (evaluated (moved_highway pA pE))
          (mainSuperLanes.map (rewarded (evaluated (moved_highway pA pE))))
        = .ok (rewards_or_zero (evaluated (moved_highway pA pE))
          (mainSuperLanes.map (rewarded (evaluated (moved_highway pA pE)))) a)) ∧
    (¬ (a.state = 0 ∨ a.state = 1) →
      react_rewards a (evaluated (moved_highway pA pE))
          (mainSuperLanes.map (rewarded (evaluated (moved_highway pA pE))))
        = .error .out_of_bounds) := by
  obtain ⟨hL, hD, hA⟩ := evaluated_moved_lengths pA pE
  obtain ⟨h0, h5⟩ := states_in_range_map_move pA a ha
  exact react_rewards_main a _ hL hD hA h0 h5

/-- After `act` under the set-up of `main`, `react` gets through `evaluate` and
the superlane loop; its agent loop is then the only part left. -/
theorem react_moved_unfold (cmd : Commands) (ql : Learning) (pA : List QLearner) (pE : highway)
    (hlen : pA.length = NUM_AGENTS) (htbl : NUM_AGENTS < pE.highway_lookup.length) :
    react cmd ql (pA.map move) (moved_highway pA pE) mainSuperLanes
      = ((List.range NUM_AGENTS).foldlM
          (react_agent cmd ql (evaluated (moved_highway pA pE))
            (mainSuperLanes.map (rewarded (evaluated (moved_highway pA pE)))))
          (pA.map move) >>= fun pA1 =>
        pure (pA1, evaluated (moved_highway pA pE),
          mainSuperLanes.map (rewarded (evaluated (moved_highway pA pE))))) := by
  unfold react
  rw [evaluate_moved pA pE hlen htbl, ok_bind,
    main_groups_ok _ (evaluated_moved_lengths pA pE).2.2, ok_bind]

theorem react_moved_ok (cmd : Commands) (ql : Learning) (pA : List QLearner) (pE : highway)
    (hlen : pA.length = NUM_AGENTS) (htbl : NUM_AGENTS < pE.highway_lookup.length)
    (hall : ∀ a ∈ pA.map move, a.state = 0 ∨ a.state = 1) :
    react cmd ql (pA.map move) (moved_highway pA pE) mainSuperLanes
      = .ok ((pA.map move).map (fun a => react_learn cmd ql a
          (rewards_or_zero (evaluated (moved_highway pA pE))
            (mainSuperLanes.map (rewarded (evaluated (moved_highway pA pE)))) a)),
        evaluated (moved_highway pA pE),
        mainSuperLanes.map (rewarded (evaluated (moved_highway pA pE)))) := by
  have hlen1 : (pA.map move).length = NUM_AGENTS := by simpa using hlen
  have hloop : (List.range NUM_AGENTS).foldlM
      (react_agent cmd ql (evaluated (moved_highway pA pE))
        (mainSuperLanes.map (rewarded (evaluated (moved_highway pA pE)))))
      (pA.map move) = _ :=
    range_loop_try_ok
      (fun a => react_rewards a (evaluated (moved_highway pA pE))
        (mainSuperLanes.map (rewarded (evaluated (moved_highway pA pE)))))
      (react_learn cmd ql)
      (rewards_or_zero (evaluated (moved_highway pA pE))
        (mainSuperLanes.map (rewarded (evaluated (moved_highway pA pE)))))
      (pA.map move) NUM_AGENTS (Nat.le_of_eq hlen1.symm)
      (fun j a _ ha =>
        (react_rewards_moved pA pE a (List.getElem?_mem ha)).1 (hall a (List.getElem?_mem ha)))
  rw [react_moved_unfold cmd ql pA pE hlen htbl, hloop, ok_bind]
  have htake : (pA.map move).take NUM_AGENTS = pA.map move := by
    rw [← hlen1]
    exact List.take_length _
  have hdrop : (pA.map move).drop NUM_AGENTS = [] := by
    rw [← hlen1]
    exact List.drop_length _
  rw [htake, hdrop, List.append_nil]
  rfl

theorem react_moved_fault (cmd : Commands) (ql : Learning) (pA : List QLearner) (pE : highway)
    (hlen : pA.length = NUM_AGENTS) (htbl : NUM_AGENTS < pE.highway_lookup.length)
    (hbad : ∃ a ∈ pA.map move, ¬ (a.state = 0 ∨ a.state = 1)) :
    react cmd ql (pA.map move) (moved_highway pA pE) mainSuperLanes
      = .error .out_of_bounds := by
  have hlen1 : (pA.map move).length = NUM_AGENTS := by simpa using hlen
  obtain ⟨b, hb, hbs⟩ := hbad
  obtain ⟨j, hj⟩ := List.getElem?_of_mem hb
  have hjlt : j < NUM_AGENTS := by
    rcases Nat.lt_or_ge j (pA.map move).length with h | h
    · rw [hlen1] at h
      exact h
    · rw [List.getElem?_eq_none h] at hj
      cases hj
  have hloop : (List.range NUM_AGENTS).foldlM
      (react_agent cmd ql (evaluated (moved_highway pA pE))
        (mainSuperLanes.map (rewarded (evaluated (moved_highway pA pE)))))
      (pA.map move) = .error .out_of_bounds :=
    range_loop_try_error
      (fun a => react_rewards a (evaluated (moved_highway pA pE))
        (mainSuperLanes.map (rewarded (evaluated (moved_highway pA pE)))))
      (react_learn cmd ql)
      (rewards_or_zero (evaluated (moved_highway pA pE))
        (mainSuperLanes.map (rewarded (evaluated (moved_highway pA pE)))))
      .out_of_bounds (pA.map move) NUM_AGENTS (Nat.le_of_eq hlen1.symm)
      (fun i a _ ha => by
        by_cases hs : a.state = 0 ∨ a.state = 1
        · exact Or.inl ((react_rewards_moved pA pE a (List.getElem?_mem ha)).1 hs)
        · exact Or.inr ((react_rewards_moved pA pE a (List.getElem?_mem ha)).2 hs))
      ⟨j, b, hjlt, hj, (react_rewards_moved pA pE b hb).2 hbs⟩
  rw [react_moved_unfold cmd ql pA pE hlen htbl, hloop]
  rfl

theorem main_highway_table : NUM_AGENTS < main_highway.highway_lookup.length := by
  rw [main_highway, make_lookup_length]
  exact Nat.lt_succ_self _

theorem crowd_moves : crowd_population.map move = crowd_population := rfl

theorem crowd_attendance :
    (moved_highway crowd_population main_highway).attendance = [0, 0, 100, 0, 0, 0] := rfl

theorem group_attendances_sum (pA : List QLearner) (pE : highway) :
    ((mainSuperLanes.map (rewarded (evaluated (moved_highway pA pE)))).map
      (fun s => s.attendance)).sum = (pA.length : Int) := by
  have hsum := lane_count_sum (pA.map move) (states_in_range_map_move pA)
  rw [List.length_map] at hsum
  rw [← hsum]
  have e : ∀ s, (rewarded (evaluated (moved_highway pA pE)) s).attendance
      = member_sum ((List.range LANES).map (lane_count (pA.map move))) s.membersID :=
    fun _ => rfl
  have m0 : (main_superLane 0).membersID = [0, 1] := rfl
  have m1 : (main_superLane 1).membersID = [2] := rfl
  have m2 : (main_superLane 2).membersID = [3, 4, 5] := rfl
  rw [mainSuperLanes_eq]
  simp only [List.map_cons, List.map_nil, e, m0, m1, m2, member_sum, LANES, List.range_succ,
    List.range_zero, List.nil_append, List.cons_append, List.sum_cons, List.sum_nil]
  simp
  ring

/-! ## Claims on one step -/

/-- C16 (defect in the code). Under the set-up of `main`, for every population
of `NUM_AGENTS` agents in which some agent ends its transition in a lane
`≥ 2`: `act`, `evaluate` and the `calcAttendReward` loop return, but the agent
loop of `react` runs into undefined behaviour, the read past the end of a
membership vector inside `findSuperLane`. -/
theorem C16_react_reads_past_end (cmd : Commands) (ql : Learning) (pA : List QLearner)
    (pE : highway) (hlen : pA.length = NUM_AGENTS)
    (htbl : NUM_AGENTS < pE.highway_lookup.length)
    (hbad : ∃ a ∈ pA.map move, 2 ≤ a.state) :
    act pA pE = .ok (pA.map move, moved_highway pA pE) ∧
    (moved_highway pA pE).evaluate = .ok (evaluated (moved_highway pA pE)) ∧
    mainSuperLanes.mapM (fun s => s.calcAttendReward (evaluated (moved_highway pA pE)))
      = .ok (mainSuperLanes.map (rewarded (evaluated (moved_highway pA pE)))) ∧
    react cmd ql (pA.map move) (moved_highway pA pE) mainSuperLanes
      = .error .out_of_bounds ∧
    Fault.signalled .out_of_bounds = false := by
  refine ⟨act_ok pA pE hlen, evaluate_moved pA pE hlen htbl,
    main_groups_ok _ (evaluated_moved_lengths pA pE).2.2, ?_, rfl⟩
  obtain ⟨a, ha, h2⟩ := hbad
  exact react_moved_fault cmd ql pA pE hlen htbl ⟨a, ha, by omega⟩

/-- Witness of C16: all `NUM_AGENTS` agents stay in lane 2. -/
theorem C16_react_reads_past_end_witness :
    crowd_population.length = NUM_AGENTS ∧
    NUM_AGENTS < main_highway.highway_lookup.length ∧
    (∃ a ∈ crowd_population.map move, 2 ≤ a.state) ∧
    react mainCommands idle_learning (crowd_population.map move)
      (moved_highway crowd_population main_highway) mainSuperLanes = .error .out_of_bounds :=
  have hbad : ∃ a ∈ crowd_population.map move, 2 ≤ a.state :=
    ⟨agent_at 2, by rw [crowd_moves]; simp [crowd_population, NUM_AGENTS], by decide⟩
  ⟨rfl, main_highway_table, hbad,
    (C16_react_reads_past_end mainCommands idle_learning crowd_population main_highway rfl
      main_highway_table hbad).2.2.2.1⟩

/-- C19 (defect in the code). Set-up of `main`, all `NUM_AGENTS` agents staying
in lane 2. After `act`, `evaluate` and `calcAttendReward` the lane of every
agent holds 100 agents, more than `CAPACITY`, and the superlane that holds
lane 2 (superlane 1) has the reward `-100 * exp(-16)`; but the reward
computation of `react` for such an agent does not return that value: it runs
into the read past the end of a membership vector inside `findSuperLane`. -/
theorem C19_coordinated_reward_undefined_in_lane_2 :
    act crowd_population main_highway
      = .ok (crowd_population, moved_highway crowd_population main_highway) ∧
    (moved_highway crowd_population main_highway).evaluate = .ok crowd_evaluated ∧
    mainSuperLanes.mapM (fun s => s.calcAttendReward crowd_evaluated) = .ok crowd_superLanes ∧
    vec_index crowd_evaluated.attendance (agent_at 2).state = .ok 100 ∧
    (100 : Int) > (CAPACITY : Int) ∧
    (vec_index crowd_superLanes 1).map (fun s => s.membersID) = .ok [2] ∧
    (vec_index crowd_superLanes 1).map (fun s => s.reward) = .ok (-100 * Real.exp (-16)) ∧
    findSuperLane crowd_superLanes (agent_at 2).state = .error .out_of_bounds ∧
    react_rewards (agent_at 2) crowd_evaluated crowd_superLanes = .error .out_of_bounds := by
  have hmem : agent_at 2 ∈ crowd_population.map move := by
    rw [crowd_moves]
    simp [crowd_population, NUM_AGENTS]
  have hne : ¬ ((agent_at 2).state = 0 ∨ (agent_at 2).state = 1) := by decide
  refine ⟨act_ok crowd_population main_highway rfl,
    evaluate_moved crowd_population main_highway rfl main_highway_table,
    main_groups_ok _ (evaluated_moved_lengths crowd_population main_highway).2.2,
    ?_, by decide, rfl, ?_, ?_,
    (react_rewards_moved crowd_population main_highway (agent_at 2) hmem).2 hne⟩
  · show vec_index (moved_highway crowd_population main_highway).attendance (agent_at 2).state
      = .ok 100
    rw [crowd_attendance]
    rfl
  · have hsum : member_sum crowd_evaluated.attendance (main_superLane 1).membersID = 100 := by
      show member_sum (moved_highway crowd_population main_highway).attendance
        (main_superLane 1).membersID = 100
      rw [crowd_attendance]
      rfl
    have hq : Int.tdiv (-100) (main_superLane 1).capacity = -16 := by decide
    show Except.ok (rewarded crowd_evaluated (main_superLane 1)).reward = _
    unfold rewarded
    simp only [hsum, hq]
    norm_num
  · show findSuperLane (mainSuperLanes.map (rewarded crowd_evaluated)) (agent_at 2).state = _
    rw [findSuperLane_rewarded, findSuperLane_main_other _ hne]

/-- C20. Under the set-up of `main`, for every population of `NUM_AGENTS`
agents, whatever their states and actions: `act`, `evaluate` and the
`calcAttendReward` loop of `react` return and the aggregate attendances of the
three superlanes add up to `NUM_AGENTS`; `react` then either returns with
exactly these superlanes or stops in the read past the end inside
`findSuperLane`, which comes after the superlanes were updated. -/
theorem C20_group_attendances_sum_to_population (cmd : Commands) (ql : Learning)
    (pA : List QLearner) (pE : highway) (hlen : pA.length = NUM_AGENTS)
    (htbl : NUM_AGENTS < pE.highway_lookup.length) :
    act pA pE = .ok (pA.map move, moved_highway pA pE) ∧
    (moved_highway pA pE).evaluate = .ok (evaluated (moved_highway pA pE)) ∧
    mainSuperLanes.mapM (fun s => s.calcAttendReward (evaluated (moved_highway pA pE)))
      = .ok (mainSuperLanes.map (rewarded (evaluated (moved_highway pA pE)))) ∧
    ((mainSuperLanes.map (rewarded (evaluated (moved_highway pA pE)))).map
      (fun s => s.attendance)).sum = (NUM_AGENTS : Int) ∧
    (react cmd ql (pA.map move) (moved_highway pA pE) mainSuperLanes = .error .out_of_bounds ∨
      ∃ pA2, react cmd ql (pA.map move) (moved_highway pA pE) mainSuperLanes
        = .ok (pA2, evaluated (moved_highway pA pE),
          mainSuperLanes.map (rewarded (evaluated (moved_highway pA pE))))) := by
  refine ⟨act_ok pA pE hlen, evaluate_moved pA pE hlen htbl,
    main_groups_ok _ (evaluated_moved_lengths pA pE).2.2, ?_, ?_⟩
  · rw [group_attendances_sum pA pE, hlen]
  · by_cases hall : ∀ a ∈ pA.map move, a.state = 0 ∨ a.state = 1
    · exact Or.inr ⟨_, react_moved_ok cmd ql pA pE hlen htbl hall⟩
    · refine Or.inl (react_moved_fault cmd ql pA pE hlen htbl ?_)
      by_contra hno
      apply hall
      intro a ha
      by_contra hs
      exact hno ⟨a, ha, hs⟩

/-- Witness of C20: one agent in lane 0 and 99 in lane 1; on this population
`react` returns. -/
theorem C20_group_attendances_sum_to_population_witness :
    lonely_population.length = NUM_AGENTS ∧
    NUM_AGENTS < main_highway.highway_lookup.length ∧
    ((mainSuperLanes.map (rewarded (evaluated (moved_highway lonely_population
      main_highway)))).map (fun s => s.attendance)).sum = (NUM_AGENTS : Int) ∧
    ∃ pA2, react mainCommands idle_learning (lonely_population.map move)
        (moved_highway lonely_population main_highway) mainSuperLanes
      = .ok (pA2, evaluated (moved_highway lonely_population main_highway),
        mainSuperLanes.map (rewarded (evaluated (moved_highway lonely_population
          main_highway)))) :=
  have hall : ∀ a ∈ lonely_population.map move, a.state = 0 ∨ a.state = 1 := by
    intro a ha
    have ha1 : a ∈ lonely_population := ha
    simp only [lonely_population, List.mem_cons, List.mem_replicate] at ha1
    rcases ha1 with h | ⟨_, h⟩ <;> subst h <;> simp [agent_at]
  ⟨rfl, main_highway_table,
    (C20_group_attendances_sum_to_population mainCommands idle_learning lonely_population
      main_highway rfl main_highway_table).2.2.2.1,
    ⟨_, react_moved_ok mainCommands idle_learning lonely_population main_highway rfl
      main_highway_table hall⟩⟩

end BPD
